import Mathlib

/-!
Verification of the `colors` Rust crate: a color-representation and
color-space-conversion engine with four outer spaces (RGBA, HSLA, HSVA, HSIA)
routed through an internal hue/chroma/minimum (HCMA) hub.

All `f32` arithmetic of the source is embedded as exact rational arithmetic.
Every definition mirrors its Rust counterpart from `src/definitions.rs`,
`src/utils.rs`, `src/colors.rs`, `src/maps.rs` and `src/helper.rs`.
-/

namespace Colors

/-- Mirrors Rust `f32::clamp(lo, hi)` for `lo ≤ hi`: values below `lo` go to
`lo`, values above `hi` go to `hi`. -/
def clampQ (x lo hi : ℚ) : ℚ := max lo (min hi x)

/-- Mirrors Rust `f32::clamp` together with its fatal `assert!(lo <= hi)`
precondition: `none` models the panic when the precondition is violated. -/
def clampChecked (x lo hi : ℚ) : Option ℚ :=
  if lo ≤ hi then some (clampQ x lo hi) else none

/-- Mirrors Rust `f32::rem_euclid` for a positive modulus. -/
def remEuclid (x y : ℚ) : ℚ := x - y * ⌊x / y⌋

/-- Mirrors Rust `f32::div_euclid` for a positive modulus. -/
def divEuclid (x y : ℚ) : ℤ := ⌊x / y⌋

/-- A color in RGBA space, `src/definitions.rs` `ColorRGBA`. -/
structure ColorRGBA where
  r : ℚ
  g : ℚ
  b : ℚ
  a : ℚ
deriving DecidableEq, Repr

/-- Validating constructor `ColorRGBA::new`: clamps every component. -/
def ColorRGBA.new (r g b a : ℚ) : ColorRGBA :=
  ⟨clampQ r 0 1, clampQ g 0 1, clampQ b 0 1, clampQ a 0 1⟩

/-- Convenience constructor `ColorRGBA::new_rgb` with alpha defaulted to 1. -/
def ColorRGBA.new_rgb (r g b : ℚ) : ColorRGBA := ColorRGBA.new r g b 1

/-- Unchecked constructor of `ColorRGBA`: stores the values verbatim. -/
def ColorRGBA.newUnchecked (r g b a : ℚ) : ColorRGBA := ⟨r, g, b, a⟩

/-- `ColorRGBA::new` routed through the panicking clamp, for the
precondition-reachability analysis. -/
def ColorRGBA.newChecked (r g b a : ℚ) : Option ColorRGBA := do
  let r' ← clampChecked r 0 1
  let g' ← clampChecked g 0 1
  let b' ← clampChecked b 0 1
  let a' ← clampChecked a 0 1
  pure ⟨r', g', b', a'⟩

/-- All four RGBA components lie in `[0, 1]`. -/
def ColorRGBA.Valid (c : ColorRGBA) : Prop :=
  0 ≤ c.r ∧ c.r ≤ 1 ∧ 0 ≤ c.g ∧ c.g ≤ 1 ∧ 0 ≤ c.b ∧ c.b ≤ 1 ∧ 0 ≤ c.a ∧ c.a ≤ 1

instance (c : ColorRGBA) : Decidable c.Valid := by unfold ColorRGBA.Valid; infer_instance

/-- A color in HSLA space, `src/definitions.rs` `ColorHSLA`. -/
structure ColorHSLA where
  h : ℚ
  s : ℚ
  l : ℚ
  a : ℚ
deriving DecidableEq, Repr

/-- Validating constructor `ColorHSLA::new`: wraps hue, clamps the rest. -/
def ColorHSLA.new (h s l a : ℚ) : ColorHSLA :=
  ⟨remEuclid h 1, clampQ s 0 1, clampQ l 0 1, clampQ a 0 1⟩

/-- Convenience constructor `ColorHSLA::new_hsl` with alpha defaulted to 1. -/
def ColorHSLA.new_hsl (h s l : ℚ) : ColorHSLA := ColorHSLA.new h s l 1

/-- Unchecked constructor of `ColorHSLA`: stores the values verbatim. -/
def ColorHSLA.newUnchecked (h s l a : ℚ) : ColorHSLA := ⟨h, s, l, a⟩

/-- `ColorHSLA::new` routed through the panicking clamp. -/
def ColorHSLA.newChecked (h s l a : ℚ) : Option ColorHSLA := do
  let s' ← clampChecked s 0 1
  let l' ← clampChecked l 0 1
  let a' ← clampChecked a 0 1
  pure ⟨remEuclid h 1, s', l', a'⟩

/-- Hue in `[0, 1)`, the other components in `[0, 1]`. -/
def ColorHSLA.Valid (c : ColorHSLA) : Prop :=
  0 ≤ c.h ∧ c.h < 1 ∧ 0 ≤ c.s ∧ c.s ≤ 1 ∧ 0 ≤ c.l ∧ c.l ≤ 1 ∧ 0 ≤ c.a ∧ c.a ≤ 1

instance (c : ColorHSLA) : Decidable c.Valid := by unfold ColorHSLA.Valid; infer_instance

/-- A color in HSVA space, `src/definitions.rs` `ColorHSVA`. -/
structure ColorHSVA where
  h : ℚ
  s : ℚ
  v : ℚ
  a : ℚ
deriving DecidableEq, Repr

/-- Validating constructor `ColorHSVA::new`: wraps hue, clamps the rest. -/
def ColorHSVA.new (h s v a : ℚ) : ColorHSVA :=
  ⟨remEuclid h 1, clampQ s 0 1, clampQ v 0 1, clampQ a 0 1⟩

/-- Convenience constructor `ColorHSVA::new_hsv` with alpha defaulted to 1. -/
def ColorHSVA.new_hsv (h s v : ℚ) : ColorHSVA := ColorHSVA.new h s v 1

/-- Unchecked constructor of `ColorHSVA`: stores the values verbatim. -/
def ColorHSVA.newUnchecked (h s v a : ℚ) : ColorHSVA := ⟨h, s, v, a⟩

/-- `ColorHSVA::new` routed through the panicking clamp. -/
def ColorHSVA.newChecked (h s v a : ℚ) : Option ColorHSVA := do
  let s' ← clampChecked s 0 1
  let v' ← clampChecked v 0 1
  let a' ← clampChecked a 0 1
  pure ⟨remEuclid h 1, s', v', a'⟩

/-- Hue in `[0, 1)`, the other components in `[0, 1]`. -/
def ColorHSVA.Valid (c : ColorHSVA) : Prop :=
  0 ≤ c.h ∧ c.h < 1 ∧ 0 ≤ c.s ∧ c.s ≤ 1 ∧ 0 ≤ c.v ∧ c.v ≤ 1 ∧ 0 ≤ c.a ∧ c.a ≤ 1

instance (c : ColorHSVA) : Decidable c.Valid := by unfold ColorHSVA.Valid; infer_instance

/-- A color in HSIA space, `src/definitions.rs` `ColorHSIA`. -/
structure ColorHSIA where
  h : ℚ
  s : ℚ
  i : ℚ
  a : ℚ
deriving DecidableEq, Repr

/-- Validating constructor `ColorHSIA::new`: wraps hue, clamps the rest. -/
def ColorHSIA.new (h s i a : ℚ) : ColorHSIA :=
  ⟨remEuclid h 1, clampQ s 0 1, clampQ i 0 1, clampQ a 0 1⟩

/-- Convenience constructor `ColorHSIA::new_hsi` with alpha defaulted to 1. -/
def ColorHSIA.new_hsi (h s i : ℚ) : ColorHSIA := ColorHSIA.new h s i 1

/-- Unchecked constructor of `ColorHSIA`: stores the values verbatim. -/
def ColorHSIA.newUnchecked (h s i a : ℚ) : ColorHSIA := ⟨h, s, i, a⟩

/-- `ColorHSIA::new` routed through the panicking clamp. -/
def ColorHSIA.newChecked (h s i a : ℚ) : Option ColorHSIA := do
  let s' ← clampChecked s 0 1
  let i' ← clampChecked i 0 1
  let a' ← clampChecked a 0 1
  pure ⟨remEuclid h 1, s', i', a'⟩

/-- Hue in `[0, 1)`, the other components in `[0, 1]`. -/
def ColorHSIA.Valid (c : ColorHSIA) : Prop :=
  0 ≤ c.h ∧ c.h < 1 ∧ 0 ≤ c.s ∧ c.s ≤ 1 ∧ 0 ≤ c.i ∧ c.i ≤ 1 ∧ 0 ≤ c.a ∧ c.a ≤ 1

instance (c : ColorHSIA) : Decidable c.Valid := by unfold ColorHSIA.Valid; infer_instance

/-- A gray color, `src/colors.rs` `Grays`. -/
structure GraysColor where
  v : ℚ
  a : ℚ
deriving DecidableEq, Repr

/-- Validating constructor `colors::Grays::new`: clamps both components. -/
def GraysColor.new (v a : ℚ) : GraysColor := ⟨clampQ v 0 1, clampQ a 0 1⟩

/-- `colors::Grays::new` routed through the panicking clamp. -/
def GraysColor.newChecked (v a : ℚ) : Option GraysColor := do
  let v' ← clampChecked v 0 1
  let a' ← clampChecked a 0 1
  pure ⟨v', a'⟩

/-- A gray color map, `src/maps.rs` `Grays`. -/
structure GraysMap where
  a : ℚ
deriving DecidableEq, Repr

/-- Validating constructor `maps::Grays::new`: clamps the alpha component. -/
def GraysMap.new (a : ℚ) : GraysMap := ⟨clampQ a 0 1⟩

/-- `maps::Grays::new` routed through the panicking clamp. -/
def GraysMap.newChecked (a : ℚ) : Option GraysMap := do
  let a' ← clampChecked a 0 1
  pure ⟨a'⟩

/-- The internal hub color, `src/utils.rs` `ColorHCMA`. -/
structure ColorHCMA where
  h : ℚ
  c : ℚ
  m : ℚ
  a : ℚ
deriving DecidableEq, Repr

/-- The nested comparison block of `ColorHCMA::from_rgb` selecting the index of
the minimum and maximum channel, verbatim from `src/utils.rs` lines 30-42. -/
def minMaxIdx (c0 c1 c2 : ℚ) : Nat × Nat :=
  if c0 < c1 ∧ c0 < c2 then
    (0, if c1 < c2 then 2 else 1)
  else if c1 < c2 then
    (1, if c0 < c2 then 2 else 0)
  else
    (2, if c0 < c1 then 1 else 0)

/-- Channel lookup for the three-element array `[r, g, b]` of `from_rgb`. -/
def ColorRGBA.chan (color : ColorRGBA) (j : Nat) : ℚ :=
  if j = 0 then color.r else if j = 1 then color.g else color.b

/-- The hub encoder `ColorHCMA::from_rgb` of `src/utils.rs`. -/
def ColorHCMA.from_rgb (color : ColorRGBA) : ColorHCMA :=
  let p := minMaxIdx color.r color.g color.b
  let i_min := p.1
  let i_max := p.2
  let hue_major := (i_min + 1) % 3
  let hue_minor := ((i_max + 3) - i_min) % 3 - 1
  let m := color.chan i_min
  let c := color.chan i_max - m
  let x := color.chan ((hue_major + (hue_minor + 1) % 2) % 3) - m
  if c = 0 then
    ⟨0, 0, m, color.a⟩
  else
    let hp := 2 * (hue_major : ℚ) + (if hue_minor = 0 then x / c else 2 - x / c)
    ⟨hp / 6, c, m, color.a⟩

/-- The hub encoder `ColorHCMA::from_hsv` of `src/utils.rs`. -/
def ColorHCMA.from_hsv (color : ColorHSVA) : ColorHCMA :=
  let c := color.v * color.s
  let m := color.v - c
  ⟨color.h, c, m, color.a⟩

/-- The hub encoder `ColorHCMA::from_hsl` of `src/utils.rs`. -/
def ColorHCMA.from_hsl (color : ColorHSLA) : ColorHCMA :=
  let c := (1 - |2 * color.l - 1|) * color.s
  let m := color.l - (1/2) * c
  ⟨color.h, c, m, color.a⟩

/-- The hub encoder `ColorHCMA::from_hsi` of `src/utils.rs`. -/
def ColorHCMA.from_hsi (color : ColorHSIA) : ColorHCMA :=
  let z := 1 - |remEuclid (6 * color.h) 2 - 1|
  let c := 3 * color.i * color.s / (1 + z)
  let m := color.i * (1 - color.s)
  ⟨color.h, c, m, color.a⟩

/-- Channel lookup for the sector array `[c, x, 0]` / `[x, c, 0]` chosen in
`ColorHCMA::to_rgb`. -/
def sectorChan (hp c x : ℚ) (j : Nat) : ℚ :=
  if remEuclid hp 2 < 1 then
    (if j = 0 then c else if j = 1 then x else 0)
  else
    (if j = 0 then x else if j = 1 then c else 0)

/-- The hub decoder `ColorHCMA::to_rgb` of `src/utils.rs`; the Rust
`as usize` cast of the sector index saturates below zero, modelled by
`Int.toNat`. -/
def ColorHCMA.to_rgb (col : ColorHCMA) : ColorRGBA :=
  let hp := col.h * 6
  let z := 1 - |remEuclid hp 2 - 1|
  let x := col.c * z
  let i := (divEuclid hp 2).toNat
  ColorRGBA.newUnchecked
    (sectorChan hp col.c x ((3 - i) % 3) + col.m)
    (sectorChan hp col.c x ((4 - i) % 3) + col.m)
    (sectorChan hp col.c x ((5 - i) % 3) + col.m)
    col.a

/-- The hub decoder `ColorHCMA::to_hsv` of `src/utils.rs`. -/
def ColorHCMA.to_hsv (col : ColorHCMA) : ColorHSVA :=
  let v := col.m + col.c
  let s := if v = 0 then 0 else col.c / v
  ColorHSVA.newUnchecked col.h s v col.a

/-- The hub decoder `ColorHCMA::to_hsl` of `src/utils.rs`. -/
def ColorHCMA.to_hsl (col : ColorHCMA) : ColorHSLA :=
  let l := col.m + (1/2) * col.c
  let z := 1 - |2 * l - 1|
  let s := if z = 0 then 0 else col.c / z
  ColorHSLA.newUnchecked col.h s l col.a

/-- The hub decoder `ColorHCMA::to_hsi` of `src/utils.rs`. -/
def ColorHCMA.to_hsi (col : ColorHCMA) : ColorHSIA :=
  let z := 1 - |remEuclid (6 * col.h) 2 - 1|
  let i := col.m + col.c * (1 + z) / 3
  let s := if i = 0 then 0 else 1 - col.m / i
  ColorHSIA.newUnchecked col.h s i col.a

/-- Public conversion `utils::rgb_to_hsv`. -/
def rgb_to_hsv (color : ColorRGBA) : ColorHSVA := (ColorHCMA.from_rgb color).to_hsv

/-- Public conversion `utils::rgb_to_hsl`. -/
def rgb_to_hsl (color : ColorRGBA) : ColorHSLA := (ColorHCMA.from_rgb color).to_hsl

/-- Public conversion `utils::rgb_to_hsi`. -/
def rgb_to_hsi (color : ColorRGBA) : ColorHSIA := (ColorHCMA.from_rgb color).to_hsi

/-- Public conversion `utils::hsv_to_hsl`. -/
def hsv_to_hsl (color : ColorHSVA) : ColorHSLA := (ColorHCMA.from_hsv color).to_hsl

/-- Public conversion `utils::hsv_to_hsi`. -/
def hsv_to_hsi (color : ColorHSVA) : ColorHSIA := (ColorHCMA.from_hsv color).to_hsi

/-- Public conversion `utils::hsv_to_rgb`. -/
def hsv_to_rgb (color : ColorHSVA) : ColorRGBA := (ColorHCMA.from_hsv color).to_rgb

/-- Public conversion `utils::hsl_to_hsi`. -/
def hsl_to_hsi (color : ColorHSLA) : ColorHSIA := (ColorHCMA.from_hsl color).to_hsi

/-- Public conversion `utils::hsl_to_rgb`. -/
def hsl_to_rgb (color : ColorHSLA) : ColorRGBA := (ColorHCMA.from_hsl color).to_rgb

/-- Public conversion `utils::hsl_to_hsv`. -/
def hsl_to_hsv (color : ColorHSLA) : ColorHSVA := (ColorHCMA.from_hsl color).to_hsv

/-- Public conversion `utils::hsi_to_rgb`. -/
def hsi_to_rgb (color : ColorHSIA) : ColorRGBA := (ColorHCMA.from_hsi color).to_rgb

/-- Public conversion `utils::hsi_to_hsv`. -/
def hsi_to_hsv (color : ColorHSIA) : ColorHSVA := (ColorHCMA.from_hsi color).to_hsv

/-- Public conversion `utils::hsi_to_hsl`. -/
def hsi_to_hsl (color : ColorHSIA) : ColorHSLA := (ColorHCMA.from_hsi color).to_hsl

/-- The direct-formula conversion `helper::hsl_to_rgb` of `src/helper.rs`,
including its channel-argument order `f(0), f(4), f(8)`. -/
def helperHslToRgb (color : ColorHSLA) : ColorRGBA :=
  let f : ℚ → ℚ := fun n =>
    let k := remEuclid (n + color.h * 12) 12
    let amp := color.s * min color.l (1 - color.l)
    color.l - amp * clampQ (min (k - 3) (9 - k)) (-1) 1
  ColorRGBA.newUnchecked (f 0) (f 4) (f 8) color.a

end Colors

namespace Colors

/-! ### Basic facts about the arithmetic helpers -/

lemma clampQ_of_mem {x lo hi : ℚ} (h1 : lo ≤ x) (h2 : x ≤ hi) : clampQ x lo hi = x := by
  unfold clampQ
  rw [min_eq_right h2, max_eq_right h1]

lemma clampQ_le {x lo hi : ℚ} (h : lo ≤ hi) : clampQ x lo hi ≤ hi := by
  unfold clampQ
  exact max_le h (min_le_left _ _)

lemma le_clampQ {x lo hi : ℚ} : lo ≤ clampQ x lo hi := le_max_left _ _

lemma remEuclid_nonneg {x y : ℚ} (hy : 0 < y) : 0 ≤ remEuclid x y := by
  unfold remEuclid
  have h1 : (⌊x / y⌋ : ℚ) ≤ x / y := Int.floor_le _
  have h2 : (⌊x / y⌋ : ℚ) * y ≤ x / y * y := by
    exact mul_le_mul_of_nonneg_right h1 (le_of_lt hy)
  rw [div_mul_cancel₀ _ (ne_of_gt hy)] at h2
  linarith

lemma remEuclid_lt {x y : ℚ} (hy : 0 < y) : remEuclid x y < y := by
  unfold remEuclid
  have h1 : x / y < ⌊x / y⌋ + 1 := Int.lt_floor_add_one _
  have h2 : x / y * y < ((⌊x / y⌋ : ℚ) + 1) * y := by
    exact mul_lt_mul_of_pos_right h1 hy
  rw [div_mul_cancel₀ _ (ne_of_gt hy)] at h2
  linarith

lemma remEuclid_one_eq (x : ℚ) : remEuclid x 1 = x - ⌊x⌋ := by
  unfold remEuclid
  rw [div_one, one_mul]

lemma remEuclid_two_eq {x : ℚ} {k : ℤ} (h1 : 2 * k ≤ x) (h2 : x < 2 * k + 2) :
    remEuclid x 2 = x - 2 * k := by
  unfold remEuclid
  have hk : ⌊x / 2⌋ = k := by
    rw [Int.floor_eq_iff]
    constructor
    · rw [le_div_iff₀ (by norm_num : (0:ℚ) < 2)]
      linarith
    · rw [div_lt_iff₀ (by norm_num : (0:ℚ) < 2)]
      linarith
  rw [hk]

lemma divEuclid_two_eq {x : ℚ} {k : ℤ} (h1 : 2 * k ≤ x) (h2 : x < 2 * k + 2) :
    divEuclid x 2 = k := by
  unfold divEuclid
  rw [Int.floor_eq_iff]
  constructor
  · rw [le_div_iff₀ (by norm_num : (0:ℚ) < 2)]
    linarith
  · rw [div_lt_iff₀ (by norm_num : (0:ℚ) < 2)]
    linarith

/-! ### C4: hue wrapping in the validating constructors -/

/-- C4: for every hue argument, including negative ones, the validating
constructors of HSLA, HSVA and HSIA store the true modulo of the hue by 1:
`h - ⌊h⌋`, which is non-negative and strictly below 1.  The non-hue arguments
play no role in the stored hue. -/
theorem C4_hue_true_modulo (h s l v i a : ℚ) :
    (ColorHSLA.new h s l a).h = h - ⌊h⌋ ∧
      0 ≤ (ColorHSLA.new h s l a).h ∧ (ColorHSLA.new h s l a).h < 1 ∧
    (ColorHSVA.new h s v a).h = h - ⌊h⌋ ∧
      0 ≤ (ColorHSVA.new h s v a).h ∧ (ColorHSVA.new h s v a).h < 1 ∧
    (ColorHSIA.new h s i a).h = h - ⌊h⌋ ∧
      0 ≤ (ColorHSIA.new h s i a).h ∧ (ColorHSIA.new h s i a).h < 1 := by
  have e : remEuclid h 1 = h - ⌊h⌋ := remEuclid_one_eq h
  have h0 : (0:ℚ) < 1 := one_pos
  refine ⟨e, remEuclid_nonneg h0, remEuclid_lt h0, e, remEuclid_nonneg h0,
    remEuclid_lt h0, e, remEuclid_nonneg h0, remEuclid_lt h0⟩

/-- C4 witness at a concrete negative hue. -/
theorem C4_hue_true_modulo_witness :
    (ColorHSLA.new (-13/10) (1/2) (1/2) 1).h = 7/10 := by
  have := (C4_hue_true_modulo (-13/10) (1/2) (1/2) (1/2) (1/2) 1).1
  rw [this]
  norm_num

/-! ### C5: clamping policy of the validating constructors -/

/-- C5: `ColorRGBA::new(-0.1, 0.2, 1.3, 1.4)` yields exactly
`(0.0, 0.2, 1.0, 1.0)`, and in general every non-hue component of every
validating constructor is clamped into `[0, 1]` (the constructors are total:
nothing is rejected). -/
theorem C5_constructor_clamps :
    ColorRGBA.new (-1/10) (2/10) (13/10) (14/10) = ⟨0, 1/5, 1, 1⟩ ∧
    (∀ r g b a : ℚ, ColorRGBA.new r g b a =
      ⟨max 0 (min 1 r), max 0 (min 1 g), max 0 (min 1 b), max 0 (min 1 a)⟩ ∧
      (ColorRGBA.new r g b a).Valid) ∧
    (∀ h s l a : ℚ, (ColorHSLA.new h s l a).s = max 0 (min 1 s) ∧
      (ColorHSLA.new h s l a).l = max 0 (min 1 l) ∧
      (ColorHSLA.new h s l a).a = max 0 (min 1 a)) ∧
    (∀ h s v a : ℚ, (ColorHSVA.new h s v a).s = max 0 (min 1 s) ∧
      (ColorHSVA.new h s v a).v = max 0 (min 1 v) ∧
      (ColorHSVA.new h s v a).a = max 0 (min 1 a)) ∧
    (∀ h s i a : ℚ, (ColorHSIA.new h s i a).s = max 0 (min 1 s) ∧
      (ColorHSIA.new h s i a).i = max 0 (min 1 i) ∧
      (ColorHSIA.new h s i a).a = max 0 (min 1 a)) := by
  refine ⟨by rw [ColorRGBA.new]; norm_num [clampQ, max_def, min_def], fun r g b a => ⟨rfl, ?_⟩, fun h s l a => ⟨rfl, rfl, rfl⟩,
    fun h s v a => ⟨rfl, rfl, rfl⟩, fun h s i a => ⟨rfl, rfl, rfl⟩⟩
  unfold ColorRGBA.Valid ColorRGBA.new
  refine ⟨le_clampQ, clampQ_le one_pos.le, le_clampQ, clampQ_le one_pos.le,
    le_clampQ, clampQ_le one_pos.le, le_clampQ, clampQ_le one_pos.le⟩

/-! ### C8: the clamp precondition is satisfied at every call site -/

/-- C8: every clamp call in the library's constructor paths uses the bounds
`0 ≤ 1`, so the clamp helper's fatal precondition check never fires: each
constructor routed through the panic-modelling clamp succeeds and returns
exactly the value of the production constructor. -/
theorem C8_clamp_panic_unreachable (r g b h s l v i va a : ℚ) :
    clampChecked a 0 1 = some (clampQ a 0 1) ∧
    ColorRGBA.newChecked r g b a = some (ColorRGBA.new r g b a) ∧
    ColorHSLA.newChecked h s l a = some (ColorHSLA.new h s l a) ∧
    ColorHSVA.newChecked h s v a = some (ColorHSVA.new h s v a) ∧
    ColorHSIA.newChecked h s i a = some (ColorHSIA.new h s i a) ∧
    GraysColor.newChecked va a = some (GraysColor.new va a) ∧
    GraysMap.newChecked a = some (GraysMap.new a) := by
  have e : ∀ x : ℚ, clampChecked x 0 1 = some (clampQ x 0 1) := by
    intro x
    unfold clampChecked
    rw [if_pos (by norm_num : (0:ℚ) ≤ 1)]
  refine ⟨e a, ?_, ?_, ?_, ?_, ?_, ?_⟩ <;>
    simp [ColorRGBA.newChecked, ColorHSLA.newChecked, ColorHSVA.newChecked,
      ColorHSIA.newChecked, GraysColor.newChecked, GraysMap.newChecked, e,
      ColorRGBA.new, ColorHSLA.new, ColorHSVA.new, ColorHSIA.new,
      GraysColor.new, GraysMap.new]

end Colors

namespace Colors

lemma floor_eval {q : ℚ} {k : ℤ} (h1 : (k:ℚ) ≤ q) (h2 : q < k + 1) : ⌊q⌋ = k :=
  Int.floor_eq_iff.mpr ⟨h1, h2⟩

/-! ### Alpha passes through every encoder and decoder untouched -/

lemma from_rgb_a (color : ColorRGBA) : (ColorHCMA.from_rgb color).a = color.a := by
  unfold ColorHCMA.from_rgb
  dsimp only
  split <;> rfl

/-- C9: each of the twelve public conversion functions returns the alpha
component of its input unchanged, for every input color. -/
theorem C9_alpha_preserved :
    (∀ c : ColorRGBA, (rgb_to_hsv c).a = c.a ∧ (rgb_to_hsl c).a = c.a ∧
      (rgb_to_hsi c).a = c.a) ∧
    (∀ c : ColorHSVA, (hsv_to_hsl c).a = c.a ∧ (hsv_to_hsi c).a = c.a ∧
      (hsv_to_rgb c).a = c.a) ∧
    (∀ c : ColorHSLA, (hsl_to_hsi c).a = c.a ∧ (hsl_to_rgb c).a = c.a ∧
      (hsl_to_hsv c).a = c.a) ∧
    (∀ c : ColorHSIA, (hsi_to_rgb c).a = c.a ∧ (hsi_to_hsv c).a = c.a ∧
      (hsi_to_hsl c).a = c.a) := by
  refine ⟨fun c => ⟨?_, ?_, ?_⟩, fun c => ⟨rfl, rfl, rfl⟩,
    fun c => ⟨rfl, rfl, rfl⟩, fun c => ⟨rfl, rfl, rfl⟩⟩ <;>
    · show (ColorHCMA.from_rgb c).a = c.a
      exact from_rgb_a c

/-! ### C2: gray inputs are achromatic fixed points of the encoder -/

lemma from_rgb_gray (g al : ℚ) : ColorHCMA.from_rgb ⟨g, g, g, al⟩ = ⟨0, 0, g, al⟩ := by
  unfold ColorHCMA.from_rgb minMaxIdx
  norm_num [ColorRGBA.chan]

/-- C2: for every gray RGBA input (r = g = b), the hub encoder returns hue 0
and chroma 0, and the three public conversions out of RGB return saturation
exactly 0; the saturation formulas take their guarded branch, so no division
by a zero denominator occurs. -/
theorem C2_gray_saturation_zero (g al : ℚ) :
    (ColorHCMA.from_rgb ⟨g, g, g, al⟩).h = 0 ∧
    (ColorHCMA.from_rgb ⟨g, g, g, al⟩).c = 0 ∧
    (rgb_to_hsv ⟨g, g, g, al⟩).s = 0 ∧
    (rgb_to_hsl ⟨g, g, g, al⟩).s = 0 ∧
    (rgb_to_hsi ⟨g, g, g, al⟩).s = 0 := by
  have e := from_rgb_gray g al
  refine ⟨by rw [e], by rw [e], ?_, ?_, ?_⟩
  · show ((ColorHCMA.from_rgb ⟨g, g, g, al⟩).to_hsv).s = 0
    rw [e]
    unfold ColorHCMA.to_hsv
    dsimp only [ColorHSVA.newUnchecked]
    split <;> simp
  · show ((ColorHCMA.from_rgb ⟨g, g, g, al⟩).to_hsl).s = 0
    rw [e]
    unfold ColorHCMA.to_hsl
    dsimp only [ColorHSLA.newUnchecked]
    split <;> simp
  · show ((ColorHCMA.from_rgb ⟨g, g, g, al⟩).to_hsi).s = 0
    rw [e]
    unfold ColorHCMA.to_hsi
    dsimp only [ColorHSIA.newUnchecked]
    split
    · rfl
    · rename_i hi
      have hg : g + 0 * (1 + (1 - |remEuclid (6 * 0) 2 - 1|)) / 3 = g := by ring
      rw [hg] at hi ⊢
      rw [div_self hi]
      ring

end Colors

namespace Colors

/-! ### Branch evaluation of the RGB encoder -/

lemma from_rgb_B1a {r g b a : ℚ} (h1 : r < g) (h2 : r < b) (h3 : g < b) :
    ColorHCMA.from_rgb ⟨r, g, b, a⟩ = ⟨(4 - (g - r) / (b - r)) / 6, b - r, r, a⟩ := by
  have hb : b - r ≠ 0 := ne_of_gt (sub_pos.mpr h2)
  unfold ColorHCMA.from_rgb minMaxIdx ColorRGBA.chan
  rw [if_pos (⟨h1, h2⟩ : r < g ∧ r < b), if_pos h3]
  norm_num [hb]
  try ring

lemma from_rgb_B1b {r g b a : ℚ} (h1 : r < g) (h2 : r < b) (h3 : b ≤ g) :
    ColorHCMA.from_rgb ⟨r, g, b, a⟩ = ⟨(2 + (b - r) / (g - r)) / 6, g - r, r, a⟩ := by
  have hb : g - r ≠ 0 := ne_of_gt (sub_pos.mpr h1)
  unfold ColorHCMA.from_rgb minMaxIdx ColorRGBA.chan
  rw [if_pos (⟨h1, h2⟩ : r < g ∧ r < b), if_neg (not_lt.mpr h3)]
  norm_num [hb]
  try ring

lemma from_rgb_B2a {r g b a : ℚ} (h1 : g ≤ r) (h2 : g < b) (h3 : r < b) :
    ColorHCMA.from_rgb ⟨r, g, b, a⟩ = ⟨(4 + (r - g) / (b - g)) / 6, b - g, g, a⟩ := by
  have hb : b - g ≠ 0 := ne_of_gt (sub_pos.mpr h2)
  unfold ColorHCMA.from_rgb minMaxIdx ColorRGBA.chan
  rw [if_neg (fun hx : r < g ∧ r < b => absurd hx.1 (not_lt.mpr h1)),
    if_pos h2, if_pos h3]
  norm_num [hb]
  try ring

lemma from_rgb_B2b {r g b a : ℚ} (h1 : g < b) (h2 : b ≤ r) :
    ColorHCMA.from_rgb ⟨r, g, b, a⟩ = ⟨(6 - (b - g) / (r - g)) / 6, r - g, g, a⟩ := by
  have hb : r - g ≠ 0 := ne_of_gt (sub_pos.mpr (lt_of_lt_of_le h1 h2))
  unfold ColorHCMA.from_rgb minMaxIdx ColorRGBA.chan
  rw [if_neg (fun hx : r < g ∧ r < b => absurd hx.2 (not_lt.mpr h2)),
    if_pos h1, if_neg (not_lt.mpr h2)]
  norm_num [hb]
  try ring

lemma from_rgb_B3a {r g b a : ℚ} (h1 : b ≤ r) (h2 : r < g) :
    ColorHCMA.from_rgb ⟨r, g, b, a⟩ = ⟨(2 - (r - b) / (g - b)) / 6, g - b, b, a⟩ := by
  have hb : g - b ≠ 0 := ne_of_gt (sub_pos.mpr (lt_of_le_of_lt h1 h2))
  unfold ColorHCMA.from_rgb minMaxIdx ColorRGBA.chan
  rw [if_neg (fun hx : r < g ∧ r < b => absurd hx.2 (not_lt.mpr h1)),
    if_neg (not_lt.mpr (lt_of_le_of_lt h1 h2).le), if_pos h2]
  norm_num [hb]
  try ring

lemma from_rgb_B3b {r g b a : ℚ} (h1 : b ≤ g) (h2 : g ≤ r) (h3 : b < r) :
    ColorHCMA.from_rgb ⟨r, g, b, a⟩ = ⟨(g - b) / (r - b) / 6, r - b, b, a⟩ := by
  have hb : r - b ≠ 0 := ne_of_gt (sub_pos.mpr h3)
  unfold ColorHCMA.from_rgb minMaxIdx ColorRGBA.chan
  rw [if_neg (fun hx : r < g ∧ r < b => absurd hx.1 (not_lt.mpr h2)),
    if_neg (not_lt.mpr h1), if_neg (not_lt.mpr h2)]
  norm_num [hb]
  try ring

/-! ### Specialized euclidean remainder evaluations -/

lemma remEuclid_two_0 {x : ℚ} (h1 : 0 ≤ x) (h2 : x < 2) : remEuclid x 2 = x := by
  have e : remEuclid x 2 = x - 2 * ((0 : ℤ) : ℚ) :=
    remEuclid_two_eq (by push_cast; linarith) (by push_cast; linarith)
  push_cast at e
  linarith

lemma remEuclid_two_1 {x : ℚ} (h1 : 2 ≤ x) (h2 : x < 4) : remEuclid x 2 = x - 2 := by
  have e : remEuclid x 2 = x - 2 * ((1 : ℤ) : ℚ) :=
    remEuclid_two_eq (by push_cast; linarith) (by push_cast; linarith)
  push_cast at e
  linarith

lemma remEuclid_two_2 {x : ℚ} (h1 : 4 ≤ x) (h2 : x < 6) : remEuclid x 2 = x - 4 := by
  have e : remEuclid x 2 = x - 2 * ((2 : ℤ) : ℚ) :=
    remEuclid_two_eq (by push_cast; linarith) (by push_cast; linarith)
  push_cast at e
  linarith

lemma divEuclid_two_0 {x : ℚ} (h1 : 0 ≤ x) (h2 : x < 2) : divEuclid x 2 = 0 :=
  divEuclid_two_eq (by push_cast; linarith) (by push_cast; linarith)

lemma divEuclid_two_1 {x : ℚ} (h1 : 2 ≤ x) (h2 : x < 4) : divEuclid x 2 = 1 :=
  divEuclid_two_eq (by push_cast; linarith) (by push_cast; linarith)

lemma divEuclid_two_2 {x : ℚ} (h1 : 4 ≤ x) (h2 : x < 6) : divEuclid x 2 = 2 :=
  divEuclid_two_eq (by push_cast; linarith) (by push_cast; linarith)

/-! ### Sector evaluation of the RGB decoder -/

lemma to_rgb_s0lo {h c m a : ℚ} (hb0 : 0 ≤ h * 6) (hb1 : h * 6 < 1) :
    ColorHCMA.to_rgb ⟨h, c, m, a⟩ = ⟨c + m, c * (h * 6) + m, m, a⟩ := by
  unfold ColorHCMA.to_rgb sectorChan ColorRGBA.newUnchecked
  dsimp only
  rw [remEuclid_two_0 hb0 (by linarith), divEuclid_two_0 hb0 (by linarith),
    abs_of_nonpos (by linarith : h * 6 - 1 ≤ 0)]
  simp only [if_pos hb1]
  norm_num
  try ring

lemma to_rgb_s0hi {h c m a : ℚ} (hb0 : 1 ≤ h * 6) (hb1 : h * 6 < 2) :
    ColorHCMA.to_rgb ⟨h, c, m, a⟩ = ⟨c * (2 - h * 6) + m, c + m, m, a⟩ := by
  unfold ColorHCMA.to_rgb sectorChan ColorRGBA.newUnchecked
  dsimp only
  rw [remEuclid_two_0 (by linarith) hb1, divEuclid_two_0 (by linarith) hb1,
    abs_of_nonneg (by linarith : 0 ≤ h * 6 - 1)]
  simp only [if_neg (not_lt.mpr hb0)]
  norm_num
  all_goals try ring
  all_goals exact Or.inl trivial

lemma to_rgb_s1lo {h c m a : ℚ} (hb0 : 2 ≤ h * 6) (hb1 : h * 6 < 3) :
    ColorHCMA.to_rgb ⟨h, c, m, a⟩ = ⟨m, c + m, c * (h * 6 - 2) + m, a⟩ := by
  unfold ColorHCMA.to_rgb sectorChan ColorRGBA.newUnchecked
  dsimp only
  rw [remEuclid_two_1 hb0 (by linarith), divEuclid_two_1 hb0 (by linarith),
    abs_of_nonpos (by linarith : h * 6 - 2 - 1 ≤ 0)]
  simp only [if_pos (show h * 6 - 2 < 1 by linarith)]
  norm_num
  try ring

lemma to_rgb_s1hi {h c m a : ℚ} (hb0 : 3 ≤ h * 6) (hb1 : h * 6 < 4) :
    ColorHCMA.to_rgb ⟨h, c, m, a⟩ = ⟨m, c * (4 - h * 6) + m, c + m, a⟩ := by
  unfold ColorHCMA.to_rgb sectorChan ColorRGBA.newUnchecked
  dsimp only
  rw [remEuclid_two_1 (by linarith) (by linarith), divEuclid_two_1 (by linarith) (by linarith),
    abs_of_nonneg (by linarith : 0 ≤ h * 6 - 2 - 1)]
  simp only [if_neg (not_lt.mpr (show (1:ℚ) ≤ h * 6 - 2 by linarith))]
  norm_num
  all_goals try ring
  all_goals exact Or.inl trivial

lemma to_rgb_s2lo {h c m a : ℚ} (hb0 : 4 ≤ h * 6) (hb1 : h * 6 < 5) :
    ColorHCMA.to_rgb ⟨h, c, m, a⟩ = ⟨c * (h * 6 - 4) + m, m, c + m, a⟩ := by
  unfold ColorHCMA.to_rgb sectorChan ColorRGBA.newUnchecked
  dsimp only
  rw [remEuclid_two_2 hb0 (by linarith), divEuclid_two_2 hb0 (by linarith),
    abs_of_nonpos (by linarith : h * 6 - 4 - 1 ≤ 0)]
  simp only [if_pos (show h * 6 - 4 < 1 by linarith)]
  norm_num [show Int.toNat 2 = 2 from rfl]
  all_goals try ring
  all_goals exact Or.inl trivial

lemma to_rgb_s2hi {h c m a : ℚ} (hb0 : 5 ≤ h * 6) (hb1 : h * 6 < 6) :
    ColorHCMA.to_rgb ⟨h, c, m, a⟩ = ⟨c + m, m, c * (6 - h * 6) + m, a⟩ := by
  unfold ColorHCMA.to_rgb sectorChan ColorRGBA.newUnchecked
  dsimp only
  rw [remEuclid_two_2 (by linarith) (by linarith), divEuclid_two_2 (by linarith) (by linarith),
    abs_of_nonneg (by linarith : 0 ≤ h * 6 - 4 - 1)]
  simp only [if_neg (not_lt.mpr (show (1:ℚ) ≤ h * 6 - 4 by linarith))]
  norm_num [show Int.toNat 2 = 2 from rfl]
  all_goals try ring
  all_goals exact Or.inl trivial

end Colors

namespace Colors



/-! ### The decoder exactly inverts the RGB encoder -/

lemma rgbaExt {r1 g1 b1 a1 r2 g2 b2 a2 : ℚ} (h1 : r1 = r2) (h2 : g1 = g2)
    (h3 : b1 = b2) (h4 : a1 = a2) :
    (⟨r1, g1, b1, a1⟩ : ColorRGBA) = ⟨r2, g2, b2, a2⟩ := by
  subst h1 h2 h3 h4
  rfl

lemma hub_rgb_roundtrip (color : ColorRGBA) :
    (ColorHCMA.from_rgb color).to_rgb = color := by
  obtain ⟨r, g, b, a⟩ := color
  have h6 : (6:ℚ) ≠ 0 := by norm_num
  by_cases h1 : r < g ∧ r < b
  · by_cases h3 : g < b
    · have hc : (0:ℚ) < b - r := sub_pos.mpr h1.2
      have hcne : b - r ≠ 0 := ne_of_gt hc
      have hq0 : 0 < (g - r) / (b - r) := div_pos (sub_pos.mpr h1.1) hc
      have hq1 : (g - r) / (b - r) < 1 := (div_lt_one hc).mpr (by linarith)
      rw [from_rgb_B1a h1.1 h1.2 h3,
        to_rgb_s1hi (by rw [div_mul_cancel₀ _ h6]; linarith)
          (by rw [div_mul_cancel₀ _ h6]; linarith)]
      apply rgbaExt <;>
        first
          | rfl
          | ring1
          | (rw [div_mul_cancel₀ _ h6]; field_simp [hcne]; try ring1)
    · by_cases h4 : b < g
      · have hc : (0:ℚ) < g - r := sub_pos.mpr h1.1
        have hcne : g - r ≠ 0 := ne_of_gt hc
        have hq0 : 0 < (b - r) / (g - r) := div_pos (sub_pos.mpr h1.2) hc
        have hq1 : (b - r) / (g - r) < 1 := (div_lt_one hc).mpr (by linarith)
        rw [from_rgb_B1b h1.1 h1.2 (not_lt.mp h3),
          to_rgb_s1lo (by rw [div_mul_cancel₀ _ h6]; linarith)
            (by rw [div_mul_cancel₀ _ h6]; linarith)]
        apply rgbaExt <;>
          first
            | rfl
            | ring1
            | (rw [div_mul_cancel₀ _ h6]; field_simp [hcne]; try ring1)
      · have hgb : g = b := le_antisymm (not_lt.mp h4) (not_lt.mp h3)
        subst hgb
        have hc : (0:ℚ) < g - r := sub_pos.mpr h1.1
        have hcne : g - r ≠ 0 := ne_of_gt hc
        rw [from_rgb_B1b h1.1 h1.2 le_rfl, div_self hcne,
          show ((2:ℚ) + 1) / 6 = 1/2 by norm_num,
          to_rgb_s1hi (by norm_num) (by norm_num)]
        apply rgbaExt <;> first | rfl | ring1
  · by_cases h2 : g < b
    · by_cases h3 : r < b
      · have hgr : g ≤ r := not_lt.mp (fun hx => h1 ⟨hx, h3⟩)
        have hc : (0:ℚ) < b - g := sub_pos.mpr h2
        have hcne : b - g ≠ 0 := ne_of_gt hc
        have hq0 : 0 ≤ (r - g) / (b - g) := div_nonneg (by linarith) hc.le
        have hq1 : (r - g) / (b - g) < 1 := (div_lt_one hc).mpr (by linarith)
        rw [from_rgb_B2a hgr h2 h3,
          to_rgb_s2lo (by rw [div_mul_cancel₀ _ h6]; linarith)
            (by rw [div_mul_cancel₀ _ h6]; linarith)]
        apply rgbaExt <;>
          first
            | rfl
            | ring1
            | (rw [div_mul_cancel₀ _ h6]; field_simp [hcne]; try ring1)
      · have hbr : b ≤ r := not_lt.mp h3
        have hc : (0:ℚ) < r - g := sub_pos.mpr (lt_of_lt_of_le h2 hbr)
        have hcne : r - g ≠ 0 := ne_of_gt hc
        have hq0 : 0 < (b - g) / (r - g) := div_pos (sub_pos.mpr h2) hc
        have hq1 : (b - g) / (r - g) ≤ 1 := (div_le_one hc).mpr (by linarith)
        rw [from_rgb_B2b h2 hbr,
          to_rgb_s2hi (by rw [div_mul_cancel₀ _ h6]; linarith)
            (by rw [div_mul_cancel₀ _ h6]; linarith)]
        apply rgbaExt <;>
          first
            | rfl
            | ring1
            | (rw [div_mul_cancel₀ _ h6]; field_simp [hcne]; try ring1)
    · have hbg : b ≤ g := not_lt.mp h2
      by_cases h3 : r < g
      · have hbr : b ≤ r := not_lt.mp (fun hx => h1 ⟨h3, hx⟩)
        have hc : (0:ℚ) < g - b := sub_pos.mpr (lt_of_le_of_lt hbr h3)
        have hcne : g - b ≠ 0 := ne_of_gt hc
        by_cases h4 : b < r
        · have hq0 : 0 < (r - b) / (g - b) := div_pos (sub_pos.mpr h4) hc
          have hq1 : (r - b) / (g - b) < 1 := (div_lt_one hc).mpr (by linarith)
          rw [from_rgb_B3a hbr h3,
            to_rgb_s0hi (by rw [div_mul_cancel₀ _ h6]; linarith)
              (by rw [div_mul_cancel₀ _ h6]; linarith)]
          apply rgbaExt <;>
            first
              | rfl
              | ring1
              | (rw [div_mul_cancel₀ _ h6]; field_simp [hcne]; try ring1)
        · have hrb : r = b := le_antisymm (not_lt.mp h4) hbr
          subst hrb
          rw [from_rgb_B3a le_rfl h3,
            show ((2:ℚ) - (r - r) / (g - r)) / 6 = 1/3 by
              rw [sub_self, zero_div]; norm_num,
            to_rgb_s1lo (by norm_num) (by norm_num)]
          apply rgbaExt <;> first | rfl | ring1
      · have hgr : g ≤ r := not_lt.mp h3
        by_cases h4 : b < r
        · have hc : (0:ℚ) < r - b := sub_pos.mpr h4
          have hcne : r - b ≠ 0 := ne_of_gt hc
          by_cases h5 : g < r
          · have hq0 : 0 ≤ (g - b) / (r - b) := div_nonneg (by linarith) hc.le
            have hq1 : (g - b) / (r - b) < 1 := (div_lt_one hc).mpr (by linarith)
            rw [from_rgb_B3b hbg hgr h4,
              to_rgb_s0lo (by rw [div_mul_cancel₀ _ h6]; linarith)
                (by rw [div_mul_cancel₀ _ h6]; linarith)]
            apply rgbaExt <;>
              first
                | rfl
                | ring1
                | (rw [div_mul_cancel₀ _ h6]; field_simp [hcne]; try ring1)
          · have hgr2 : g = r := le_antisymm hgr (not_lt.mp h5)
            subst hgr2
            rw [from_rgb_B3b hbg le_rfl h4, div_self hcne,
              to_rgb_s0hi (by norm_num) (by norm_num)]
            apply rgbaExt <;> first | rfl | ring1
        · have hrb : r ≤ b := not_lt.mp h4
          have e1 : g = r := le_antisymm hgr (le_trans hrb hbg)
          subst e1
          have e2 : b = g := le_antisymm hbg hrb
          subst e2
          rw [from_rgb_gray b a, to_rgb_s0lo (by norm_num) (by norm_num)]
          apply rgbaExt <;> first | rfl | ring1


/-! ### The RGB encoder exactly inverts the decoder on chromatic hub colors -/

lemma hcmaExt {h1 c1 m1 a1 h2 c2 m2 a2 : ℚ} (e1 : h1 = h2) (e2 : c1 = c2)
    (e3 : m1 = m2) (e4 : a1 = a2) :
    (⟨h1, c1, m1, a1⟩ : ColorHCMA) = ⟨h2, c2, m2, a2⟩ := by
  subst e1 e2 e3 e4
  rfl

lemma rgb_hub_roundtrip {h c m a : ℚ} (hh0 : 0 ≤ h) (hh1 : h < 1) (hc : 0 < c) :
    ColorHCMA.from_rgb (ColorHCMA.to_rgb ⟨h, c, m, a⟩) = ⟨h, c, m, a⟩ := by
  have hcne : c ≠ 0 := ne_of_gt hc
  have h60 : 0 ≤ h * 6 := by linarith
  have h66 : h * 6 < 6 := by linarith
  by_cases c1 : h * 6 < 1
  · rw [to_rgb_s0lo h60 c1,
      from_rgb_B3b (by nlinarith) (by nlinarith) (by nlinarith)]
    apply hcmaExt
    · field_simp
    · ring
    · rfl
    · rfl
  · have d1 : 1 ≤ h * 6 := not_lt.mp c1
    by_cases c2 : h * 6 < 2
    · by_cases c1' : 1 < h * 6
      · rw [to_rgb_s0hi d1 c2,
          from_rgb_B3a (by nlinarith) (by nlinarith)]
        apply hcmaExt
        · field_simp
          try ring1
        · ring
        · rfl
        · rfl
      · have he : h = 1/6 := by
          have := not_lt.mp c1'
          linarith
        subst he
        rw [to_rgb_s0hi (by norm_num) (by norm_num),
          show c * (2 - (1:ℚ)/6 * 6) + m = c + m by ring,
          from_rgb_B3b (by nlinarith) le_rfl (by nlinarith)]
        apply hcmaExt
        · rw [show c + m - m = c by ring, div_self hcne]
        · ring
        · rfl
        · rfl
    · have d2 : 2 ≤ h * 6 := not_lt.mp c2
      by_cases c3 : h * 6 < 3
      · by_cases c2' : 2 < h * 6
        · rw [to_rgb_s1lo d2 c3,
            from_rgb_B1b (by nlinarith) (by nlinarith) (by nlinarith)]
          apply hcmaExt
          · field_simp
            try ring1
          · ring
          · rfl
          · rfl
        · have he : h = 1/3 := by
            have := not_lt.mp c2'
            linarith
          subst he
          rw [to_rgb_s1lo (by norm_num) (by norm_num),
            show c * ((1:ℚ)/3 * 6 - 2) + m = m by ring,
            from_rgb_B3a le_rfl (by nlinarith)]
          apply hcmaExt
          · rw [show m - m = (0:ℚ) by ring, zero_div]
            norm_num
          · ring
          · rfl
          · rfl
      · have d3 : 3 ≤ h * 6 := not_lt.mp c3
        by_cases c4 : h * 6 < 4
        · by_cases c3' : 3 < h * 6
          · rw [to_rgb_s1hi d3 c4,
              from_rgb_B1a (by nlinarith) (by nlinarith) (by nlinarith)]
            apply hcmaExt
            · field_simp
              try ring1
            · ring
            · rfl
            · rfl
          · have he : h = 1/2 := by
              have := not_lt.mp c3'
              linarith
            subst he
            rw [to_rgb_s1hi (by norm_num) (by norm_num),
              show c * (4 - (1:ℚ)/2 * 6) + m = c + m by ring,
              from_rgb_B1b (by nlinarith) (by nlinarith) le_rfl]
            apply hcmaExt
            · rw [show c + m - m = c by ring, div_self hcne]
              norm_num
            · ring
            · rfl
            · rfl
        · have d4 : 4 ≤ h * 6 := not_lt.mp c4
          by_cases c5 : h * 6 < 5
          · rw [to_rgb_s2lo d4 c5,
              from_rgb_B2a (by nlinarith) (by nlinarith) (by nlinarith)]
            apply hcmaExt
            · field_simp
              try ring1
            · ring
            · rfl
            · rfl
          · have d5 : 5 ≤ h * 6 := not_lt.mp c5
            rw [to_rgb_s2hi d5 h66,
              from_rgb_B2b (by nlinarith) (by nlinarith)]
            apply hcmaExt
            · field_simp
              try ring1
            · ring
            · rfl
            · rfl

end Colors

namespace Colors

/-! ### Extensionality helpers for the remaining value types -/

lemma hsvaExt {h1 s1 v1 a1 h2 s2 v2 a2 : ℚ} (e1 : h1 = h2) (e2 : s1 = s2)
    (e3 : v1 = v2) (e4 : a1 = a2) :
    (⟨h1, s1, v1, a1⟩ : ColorHSVA) = ⟨h2, s2, v2, a2⟩ := by
  subst e1 e2 e3 e4
  rfl

lemma hslaExt {h1 s1 l1 a1 h2 s2 l2 a2 : ℚ} (e1 : h1 = h2) (e2 : s1 = s2)
    (e3 : l1 = l2) (e4 : a1 = a2) :
    (⟨h1, s1, l1, a1⟩ : ColorHSLA) = ⟨h2, s2, l2, a2⟩ := by
  subst e1 e2 e3 e4
  rfl

lemma hsiaExt {h1 s1 i1 a1 h2 s2 i2 a2 : ℚ} (e1 : h1 = h2) (e2 : s1 = s2)
    (e3 : i1 = i2) (e4 : a1 = a2) :
    (⟨h1, s1, i1, a1⟩ : ColorHSIA) = ⟨h2, s2, i2, a2⟩ := by
  subst e1 e2 e3 e4
  rfl

/-! ### Hub round trips through HSV, HSL and HSI -/

lemma hsv_hub_roundtrip {h c m a : ℚ} (hc : 0 ≤ c) (hm : 0 ≤ m) :
    ColorHCMA.from_hsv (ColorHCMA.to_hsv ⟨h, c, m, a⟩) = ⟨h, c, m, a⟩ := by
  unfold ColorHCMA.to_hsv ColorHCMA.from_hsv ColorHSVA.newUnchecked
  dsimp only
  by_cases hv : m + c = 0
  · rw [if_pos hv]
    apply hcmaExt rfl
    · rw [mul_zero]
      linarith
    · rw [mul_zero, sub_zero]
      linarith
    · rfl
  · rw [if_neg hv]
    apply hcmaExt rfl (mul_div_cancel₀ _ hv)
    · rw [mul_div_cancel₀ _ hv]
      ring
    · rfl

lemma hsl_hub_roundtrip {h c m a : ℚ} (hc : 0 ≤ c) (hm : 0 ≤ m) (hcm : c + m ≤ 1) :
    ColorHCMA.from_hsl (ColorHCMA.to_hsl ⟨h, c, m, a⟩) = ⟨h, c, m, a⟩ := by
  unfold ColorHCMA.to_hsl ColorHCMA.from_hsl ColorHSLA.newUnchecked
  dsimp only
  by_cases hz : 1 - |2 * (m + 1/2 * c) - 1| = 0
  · rw [if_pos hz]
    have habs : |2 * (m + 1/2 * c) - 1| = 1 := by linarith
    have hc0 : c = 0 := by
      rcases (abs_eq (by norm_num : (0:ℚ) ≤ 1)).mp habs with h1 | h1
      · linarith
      · linarith
    apply hcmaExt rfl
    · rw [mul_zero]
      linarith
    · rw [mul_zero, mul_zero, sub_zero]
      linarith
    · rfl
  · rw [if_neg hz]
    apply hcmaExt rfl (mul_div_cancel₀ _ hz)
    · rw [mul_div_cancel₀ _ hz]
      ring
    · rfl

lemma hsi_hub_roundtrip {h c m a : ℚ} (hc : 0 ≤ c) (hm : 0 ≤ m) :
    ColorHCMA.from_hsi (ColorHCMA.to_hsi ⟨h, c, m, a⟩) = ⟨h, c, m, a⟩ := by
  unfold ColorHCMA.to_hsi ColorHCMA.from_hsi ColorHSIA.newUnchecked
  dsimp only
  have hr0 : 0 ≤ remEuclid (6 * h) 2 := remEuclid_nonneg (by norm_num)
  have hr2 : remEuclid (6 * h) 2 < 2 := remEuclid_lt (by norm_num)
  have habs : |remEuclid (6 * h) 2 - 1| ≤ 1 := abs_le.mpr ⟨by linarith, by linarith⟩
  have hz0 : 0 ≤ 1 - |remEuclid (6 * h) 2 - 1| := by linarith
  have hzne : 1 + (1 - |remEuclid (6 * h) 2 - 1|) ≠ 0 := by positivity
  by_cases hi : m + c * (1 + (1 - |remEuclid (6 * h) 2 - 1|)) / 3 = 0
  · rw [if_pos hi]
    have hc0 : c = 0 := by nlinarith
    have hm0 : m = 0 := by nlinarith
    apply hcmaExt rfl
    · rw [mul_zero, zero_div]
      linarith
    · rw [sub_zero, mul_one]
      linarith
    · rfl
  · rw [if_neg hi]
    have hi3 : m * 3 + c * (1 + (1 - |remEuclid (6 * h) 2 - 1|)) ≠ 0 := by
      intro hzero
      apply hi
      linarith
    apply hcmaExt rfl
    · field_simp [hi3]
      try ring1
    · field_simp [hi3]
      try ring1
    · rfl

/-! ### Decoding after encoding the outer HSx spaces -/

lemma hsv_enc_dec {h s v a : ℚ} (hv : 0 < v) :
    (ColorHCMA.from_hsv ⟨h, s, v, a⟩).to_hsv = ⟨h, s, v, a⟩ := by
  unfold ColorHCMA.from_hsv ColorHCMA.to_hsv ColorHSVA.newUnchecked
  dsimp only
  rw [show v - v * s + v * s = v by ring, if_neg (ne_of_gt hv)]
  exact hsvaExt rfl (mul_div_cancel_left₀ s (ne_of_gt hv)) rfl rfl

lemma hsl_enc_dec {h s l a : ℚ} (hl0 : 0 < l) (hl1 : l < 1) :
    (ColorHCMA.from_hsl ⟨h, s, l, a⟩).to_hsl = ⟨h, s, l, a⟩ := by
  unfold ColorHCMA.from_hsl ColorHCMA.to_hsl ColorHSLA.newUnchecked
  dsimp only
  have habs : |2 * l - 1| < 1 := abs_lt.mpr ⟨by linarith, by linarith⟩
  have hz : 1 - |2 * l - 1| ≠ 0 := ne_of_gt (by linarith)
  rw [show l - 1/2 * ((1 - |2 * l - 1|) * s) + 1/2 * ((1 - |2 * l - 1|) * s) = l by ring,
    if_neg hz]
  exact hslaExt rfl (mul_div_cancel_left₀ s hz) rfl rfl

lemma hsi_enc_dec {h s i a : ℚ} (hi : 0 < i) :
    (ColorHCMA.from_hsi ⟨h, s, i, a⟩).to_hsi = ⟨h, s, i, a⟩ := by
  unfold ColorHCMA.from_hsi ColorHCMA.to_hsi ColorHSIA.newUnchecked
  dsimp only
  have hr0 : 0 ≤ remEuclid (6 * h) 2 := remEuclid_nonneg (by norm_num)
  have hr2 : remEuclid (6 * h) 2 < 2 := remEuclid_lt (by norm_num)
  have habs : |remEuclid (6 * h) 2 - 1| ≤ 1 := abs_le.mpr ⟨by linarith, by linarith⟩
  have hzne : 1 + (1 - |remEuclid (6 * h) 2 - 1|) ≠ 0 := ne_of_gt (by linarith)
  rw [show i * (1 - s) + 3 * i * s / (1 + (1 - |remEuclid (6 * h) 2 - 1|)) *
      (1 + (1 - |remEuclid (6 * h) 2 - 1|)) / 3 = i by
    field_simp
    ring1]
  rw [if_neg (ne_of_gt hi)]
  apply hsiaExt rfl
  · field_simp [ne_of_gt hi]
    try ring1
  · rfl
  · rfl

end Colors

namespace Colors

/-! ### Range invariants of the hub encoders and decoders -/

/-- The hub values the encoders produce from valid outer colors: hue in
`[0, 1)`, chroma and minimum non-negative with `c + m ≤ 1` (the maximum
channel), alpha in `[0, 1]`. -/
def ColorHCMA.Good (x : ColorHCMA) : Prop :=
  0 ≤ x.h ∧ x.h < 1 ∧ 0 ≤ x.c ∧ 0 ≤ x.m ∧ x.c + x.m ≤ 1 ∧ 0 ≤ x.a ∧ x.a ≤ 1

lemma from_rgb_good {x : ColorRGBA} (hx : x.Valid) : (ColorHCMA.from_rgb x).Good := by
  obtain ⟨r, g, b, a⟩ := x
  obtain ⟨hr0, hr1, hg0, hg1, hb0, hb1, ha0, ha1⟩ := hx
  dsimp only at hr0 hr1 hg0 hg1 hb0 hb1 ha0 ha1
  by_cases h1 : r < g ∧ r < b
  · by_cases h3 : g < b
    · have hc : (0:ℚ) < b - r := sub_pos.mpr h1.2
      have hq0 : 0 < (g - r) / (b - r) := div_pos (sub_pos.mpr h1.1) hc
      have hq1 : (g - r) / (b - r) < 1 := (div_lt_one hc).mpr (by linarith)
      rw [from_rgb_B1a h1.1 h1.2 h3]
      exact ⟨by linarith, by linarith, by linarith, hr0, by linarith, ha0, ha1⟩
    · have hc : (0:ℚ) < g - r := sub_pos.mpr h1.1
      have hq0 : 0 < (b - r) / (g - r) := div_pos (sub_pos.mpr h1.2) hc
      have hq1 : (b - r) / (g - r) ≤ 1 := (div_le_one hc).mpr (by linarith [not_lt.mp h3])
      rw [from_rgb_B1b h1.1 h1.2 (not_lt.mp h3)]
      exact ⟨by linarith, by linarith, by linarith, hr0, by linarith, ha0, ha1⟩
  · by_cases h2 : g < b
    · by_cases h3 : r < b
      · have hgr : g ≤ r := not_lt.mp (fun hy => h1 ⟨hy, h3⟩)
        have hc : (0:ℚ) < b - g := sub_pos.mpr h2
        have hq0 : 0 ≤ (r - g) / (b - g) := div_nonneg (by linarith) hc.le
        have hq1 : (r - g) / (b - g) < 1 := (div_lt_one hc).mpr (by linarith)
        rw [from_rgb_B2a hgr h2 h3]
        exact ⟨by linarith, by linarith, by linarith, hg0, by linarith, ha0, ha1⟩
      · have hbr : b ≤ r := not_lt.mp h3
        have hc : (0:ℚ) < r - g := sub_pos.mpr (lt_of_lt_of_le h2 hbr)
        have hq0 : 0 < (b - g) / (r - g) := div_pos (sub_pos.mpr h2) hc
        have hq1 : (b - g) / (r - g) ≤ 1 := (div_le_one hc).mpr (by linarith)
        rw [from_rgb_B2b h2 hbr]
        exact ⟨by linarith, by linarith, by linarith, hg0, by linarith, ha0, ha1⟩
    · have hbg : b ≤ g := not_lt.mp h2
      by_cases h3 : r < g
      · have hbr : b ≤ r := not_lt.mp (fun hy => h1 ⟨h3, hy⟩)
        have hc : (0:ℚ) < g - b := sub_pos.mpr (lt_of_le_of_lt hbr h3)
        have hq0 : 0 ≤ (r - b) / (g - b) := div_nonneg (by linarith) hc.le
        have hq1 : (r - b) / (g - b) < 1 := (div_lt_one hc).mpr (by linarith)
        rw [from_rgb_B3a hbr h3]
        exact ⟨by linarith, by linarith, by linarith, hb0, by linarith, ha0, ha1⟩
      · have hgr : g ≤ r := not_lt.mp h3
        by_cases h4 : b < r
        · have hc : (0:ℚ) < r - b := sub_pos.mpr h4
          have hq0 : 0 ≤ (g - b) / (r - b) := div_nonneg (by linarith) hc.le
          have hq1 : (g - b) / (r - b) ≤ 1 := (div_le_one hc).mpr (by linarith)
          rw [from_rgb_B3b hbg hgr h4]
          exact ⟨by linarith, by linarith, by linarith, hb0, by linarith, ha0, ha1⟩
        · have hrb : r ≤ b := not_lt.mp h4
          have e1 : g = r := le_antisymm hgr (le_trans hrb hbg)
          subst e1
          have e2 : b = g := le_antisymm hbg hrb
          subst e2
          rw [from_rgb_gray b a]
          exact ⟨le_rfl, by norm_num, le_rfl, hb0, by dsimp only; linarith, ha0, ha1⟩

lemma from_hsv_good {x : ColorHSVA} (hx : x.Valid) : (ColorHCMA.from_hsv x).Good := by
  obtain ⟨h, s, v, a⟩ := x
  obtain ⟨hh0, hh1, hs0, hs1, hv0, hv1, ha0, ha1⟩ := hx
  have key : v * s ≤ v := by nlinarith
  exact ⟨hh0, hh1, mul_nonneg hv0 hs0, by dsimp [ColorHCMA.from_hsv]; linarith,
    by dsimp [ColorHCMA.from_hsv]; linarith, ha0, ha1⟩

lemma from_hsl_good {x : ColorHSLA} (hx : x.Valid) : (ColorHCMA.from_hsl x).Good := by
  obtain ⟨h, s, l, a⟩ := x
  obtain ⟨hh0, hh1, hs0, hs1, hl0, hl1, ha0, ha1⟩ := hx
  have habs : |2 * l - 1| ≤ 1 := abs_le.mpr ⟨by linarith, by linarith⟩
  have hB : 2 * l - 1 ≤ |2 * l - 1| := le_abs_self _
  have hC : 1 - 2 * l ≤ |2 * l - 1| := by
    rw [abs_sub_comm]
    exact le_abs_self _
  have hcle : (1 - |2 * l - 1|) * s ≤ 1 - |2 * l - 1| := by nlinarith
  refine ⟨hh0, hh1, mul_nonneg (by linarith) hs0, ?_, ?_, ha0, ha1⟩
  · dsimp [ColorHCMA.from_hsl]
    linarith
  · dsimp [ColorHCMA.from_hsl]
    linarith

lemma sectorChan_bounds (hp : ℚ) {c xx : ℚ} (hc : 0 ≤ c) (h0 : 0 ≤ xx) (h1 : xx ≤ c) (j : ℕ) :
    0 ≤ sectorChan hp c xx j ∧ sectorChan hp c xx j ≤ c := by
  unfold sectorChan
  split_ifs <;> constructor <;> linarith

lemma to_rgb_valid {x : ColorHCMA} (hx : x.Good) : x.to_rgb.Valid := by
  obtain ⟨h, c, m, a⟩ := x
  obtain ⟨hh0, hh1, hc0, hm0, hcm, ha0, ha1⟩ := hx
  dsimp only at hh0 hh1 hc0 hm0 hcm ha0 ha1
  have hr0 : 0 ≤ remEuclid (h * 6) 2 := remEuclid_nonneg (by norm_num)
  have hr2 : remEuclid (h * 6) 2 < 2 := remEuclid_lt (by norm_num)
  have habs : |remEuclid (h * 6) 2 - 1| ≤ 1 := abs_le.mpr ⟨by linarith, by linarith⟩
  have habs0 : 0 ≤ |remEuclid (h * 6) 2 - 1| := abs_nonneg _
  have hx0 : 0 ≤ c * (1 - |remEuclid (h * 6) 2 - 1|) := mul_nonneg hc0 (by linarith)
  have hx1 : c * (1 - |remEuclid (h * 6) 2 - 1|) ≤ c := by nlinarith
  have B1 := sectorChan_bounds (h * 6) hc0 hx0 hx1
    ((3 - (divEuclid (h * 6) 2).toNat) % 3)
  have B2 := sectorChan_bounds (h * 6) hc0 hx0 hx1
    ((4 - (divEuclid (h * 6) 2).toNat) % 3)
  have B3 := sectorChan_bounds (h * 6) hc0 hx0 hx1
    ((5 - (divEuclid (h * 6) 2).toNat) % 3)
  unfold ColorHCMA.to_rgb ColorRGBA.newUnchecked ColorRGBA.Valid
  dsimp only
  refine ⟨?_, ?_, ?_, ?_, ?_, ?_, ha0, ha1⟩ <;>
    linarith [B1.1, B1.2, B2.1, B2.2, B3.1, B3.2]

end Colors

namespace Colors

lemma to_hsv_valid {x : ColorHCMA} (hx : x.Good) : x.to_hsv.Valid := by
  obtain ⟨h, c, m, a⟩ := x
  obtain ⟨hh0, hh1, hc0, hm0, hcm, ha0, ha1⟩ := hx
  dsimp only at hh0 hh1 hc0 hm0 hcm ha0 ha1
  unfold ColorHCMA.to_hsv ColorHSVA.newUnchecked ColorHSVA.Valid
  dsimp only
  refine ⟨hh0, hh1, ?_, ?_, by linarith, by linarith, ha0, ha1⟩
  · by_cases hv : m + c = 0
    · rw [if_pos hv]
    · rw [if_neg hv]
      exact div_nonneg hc0 (by linarith)
  · by_cases hv : m + c = 0
    · rw [if_pos hv]
      norm_num
    · rw [if_neg hv]
      have hpos : 0 < m + c := lt_of_le_of_ne (by linarith) (Ne.symm hv)
      exact (div_le_one hpos).mpr (by linarith)

lemma to_hsl_valid {x : ColorHCMA} (hx : x.Good) : x.to_hsl.Valid := by
  obtain ⟨h, c, m, a⟩ := x
  obtain ⟨hh0, hh1, hc0, hm0, hcm, ha0, ha1⟩ := hx
  dsimp only at hh0 hh1 hc0 hm0 hcm ha0 ha1
  unfold ColorHCMA.to_hsl ColorHSLA.newUnchecked ColorHSLA.Valid
  dsimp only
  have habs : |2 * (m + 1/2 * c) - 1| ≤ 1 - c :=
    abs_le.mpr ⟨by linarith, by linarith⟩
  have habs0 : 0 ≤ |2 * (m + 1/2 * c) - 1| := abs_nonneg _
  refine ⟨hh0, hh1, ?_, ?_, by linarith, by linarith, ha0, ha1⟩
  · by_cases hz : 1 - |2 * (m + 1/2 * c) - 1| = 0
    · rw [if_pos hz]
    · rw [if_neg hz]
      exact div_nonneg hc0 (by linarith [(lt_of_le_of_ne (by linarith) (Ne.symm hz))])
  · by_cases hz : 1 - |2 * (m + 1/2 * c) - 1| = 0
    · rw [if_pos hz]
      norm_num
    · rw [if_neg hz]
      have hpos : 0 < 1 - |2 * (m + 1/2 * c) - 1| :=
        lt_of_le_of_ne (by linarith) (Ne.symm hz)
      exact (div_le_one hpos).mpr (by linarith)

lemma to_hsi_valid {x : ColorHCMA} (hx : x.Good) : x.to_hsi.Valid := by
  obtain ⟨h, c, m, a⟩ := x
  obtain ⟨hh0, hh1, hc0, hm0, hcm, ha0, ha1⟩ := hx
  dsimp only at hh0 hh1 hc0 hm0 hcm ha0 ha1
  unfold ColorHCMA.to_hsi ColorHSIA.newUnchecked ColorHSIA.Valid
  dsimp only
  have hr0 : 0 ≤ remEuclid (6 * h) 2 := remEuclid_nonneg (by norm_num)
  have hr2 : remEuclid (6 * h) 2 < 2 := remEuclid_lt (by norm_num)
  have habs : |remEuclid (6 * h) 2 - 1| ≤ 1 := abs_le.mpr ⟨by linarith, by linarith⟩
  have habs0 : 0 ≤ |remEuclid (6 * h) 2 - 1| := abs_nonneg _
  have hcz0 : 0 ≤ c * (1 + (1 - |remEuclid (6 * h) 2 - 1|)) :=
    mul_nonneg hc0 (by linarith)
  have hcz1 : c * (1 + (1 - |remEuclid (6 * h) 2 - 1|)) ≤ c * 2 := by nlinarith
  refine ⟨hh0, hh1, ?_, ?_, by linarith, by linarith, ha0, ha1⟩
  · by_cases hi : m + c * (1 + (1 - |remEuclid (6 * h) 2 - 1|)) / 3 = 0
    · rw [if_pos hi]
    · rw [if_neg hi]
      have hpos : 0 < m + c * (1 + (1 - |remEuclid (6 * h) 2 - 1|)) / 3 :=
        lt_of_le_of_ne (by linarith) (Ne.symm hi)
      have : m / (m + c * (1 + (1 - |remEuclid (6 * h) 2 - 1|)) / 3) ≤ 1 :=
        (div_le_one hpos).mpr (by linarith)
      linarith
  · by_cases hi : m + c * (1 + (1 - |remEuclid (6 * h) 2 - 1|)) / 3 = 0
    · rw [if_pos hi]
      norm_num
    · rw [if_neg hi]
      have hpos : 0 < m + c * (1 + (1 - |remEuclid (6 * h) 2 - 1|)) / 3 :=
        lt_of_le_of_ne (by linarith) (Ne.symm hi)
      have : 0 ≤ m / (m + c * (1 + (1 - |remEuclid (6 * h) 2 - 1|)) / 3) :=
        div_nonneg hm0 hpos.le
      linarith

end Colors

namespace Colors

/-! ### Wrappers of the round-trip lemmas for arbitrary hub values -/

lemma zWave_nonneg (t : ℚ) : 0 ≤ 1 - |remEuclid t 2 - 1| := by
  have h0 : 0 ≤ remEuclid t 2 := remEuclid_nonneg (by norm_num)
  have h2 : remEuclid t 2 < 2 := remEuclid_lt (by norm_num)
  have : |remEuclid t 2 - 1| ≤ 1 := abs_le.mpr ⟨by linarith, by linarith⟩
  linarith

lemma hsv_hub_roundtrip' {y : ColorHCMA} (hc : 0 ≤ y.c) (hm : 0 ≤ y.m) :
    ColorHCMA.from_hsv y.to_hsv = y := by
  obtain ⟨h, c, m, a⟩ := y
  exact hsv_hub_roundtrip hc hm

lemma hsl_hub_roundtrip' {y : ColorHCMA} (hc : 0 ≤ y.c) (hm : 0 ≤ y.m)
    (hcm : y.c + y.m ≤ 1) : ColorHCMA.from_hsl y.to_hsl = y := by
  obtain ⟨h, c, m, a⟩ := y
  exact hsl_hub_roundtrip hc hm hcm

lemma hsi_hub_roundtrip' {y : ColorHCMA} (hc : 0 ≤ y.c) (hm : 0 ≤ y.m) :
    ColorHCMA.from_hsi y.to_hsi = y := by
  obtain ⟨h, c, m, a⟩ := y
  exact hsi_hub_roundtrip hc hm

lemma rgb_hub_roundtrip' {y : ColorHCMA} (hh0 : 0 ≤ y.h) (hh1 : y.h < 1)
    (hc : 0 < y.c) : ColorHCMA.from_rgb y.to_rgb = y := by
  obtain ⟨h, c, m, a⟩ := y
  exact rgb_hub_roundtrip hh0 hh1 hc

lemma hsv_enc_dec' {x : ColorHSVA} (hv : 0 < x.v) :
    (ColorHCMA.from_hsv x).to_hsv = x := by
  obtain ⟨h, s, v, a⟩ := x
  exact hsv_enc_dec hv

lemma hsl_enc_dec' {x : ColorHSLA} (hl0 : 0 < x.l) (hl1 : x.l < 1) :
    (ColorHCMA.from_hsl x).to_hsl = x := by
  obtain ⟨h, s, l, a⟩ := x
  exact hsl_enc_dec hl0 hl1

lemma hsi_enc_dec' {x : ColorHSIA} (hi : 0 < x.i) :
    (ColorHCMA.from_hsi x).to_hsi = x := by
  obtain ⟨h, s, i, a⟩ := x
  exact hsi_enc_dec hi

lemma from_hsv_c_pos {x : ColorHSVA} (hs : 0 < x.s) (hv : 0 < x.v) :
    0 < (ColorHCMA.from_hsv x).c :=
  mul_pos hv hs

lemma from_hsl_c_pos {x : ColorHSLA} (hx : x.Valid) (hs : 0 < x.s) (hl0 : 0 < x.l)
    (hl1 : x.l < 1) : 0 < (ColorHCMA.from_hsl x).c := by
  have habs : |2 * x.l - 1| < 1 := abs_lt.mpr ⟨by linarith, by linarith⟩
  exact mul_pos (by linarith) hs

lemma from_hsi_c_pos {x : ColorHSIA} (hs : 0 < x.s) (hi : 0 < x.i) :
    0 < (ColorHCMA.from_hsi x).c := by
  have hz := zWave_nonneg (6 * x.h)
  exact div_pos (by positivity) (by linarith)

lemma from_hsi_m_nonneg {x : ColorHSIA} (hi : 0 ≤ x.i) (hs : x.s ≤ 1) :
    0 ≤ (ColorHCMA.from_hsi x).m :=
  mul_nonneg hi (by linarith)

/-- C1 (amended): every conversion pair `A→B` then `B→A` reproduces the input
exactly — hence within the 0.001 tolerance — for every valid RGB color, and
for every valid HSV/HSL/HSI color whose chroma is positive (HSV: `s, v > 0`;
HSL: `s > 0` and `0 < l < 1`; HSI: `s, i > 0`, plus, for the trip through
HSL, that the color is RGB-realizable: chroma + minimum ≤ 1).  Achromatic
HSx colors can lose their redundant hue/saturation and are excluded. -/
theorem C1_roundtrips :
    (∀ x : ColorRGBA, x.Valid → hsv_to_rgb (rgb_to_hsv x) = x) ∧
    (∀ x : ColorRGBA, x.Valid → hsl_to_rgb (rgb_to_hsl x) = x) ∧
    (∀ x : ColorRGBA, x.Valid → hsi_to_rgb (rgb_to_hsi x) = x) ∧
    (∀ x : ColorHSVA, x.Valid → 0 < x.s → 0 < x.v →
      rgb_to_hsv (hsv_to_rgb x) = x) ∧
    (∀ x : ColorHSVA, x.Valid → 0 < x.s → 0 < x.v →
      hsl_to_hsv (hsv_to_hsl x) = x) ∧
    (∀ x : ColorHSVA, x.Valid → 0 < x.s → 0 < x.v →
      hsi_to_hsv (hsv_to_hsi x) = x) ∧
    (∀ x : ColorHSLA, x.Valid → 0 < x.s → 0 < x.l → x.l < 1 →
      rgb_to_hsl (hsl_to_rgb x) = x) ∧
    (∀ x : ColorHSLA, x.Valid → 0 < x.s → 0 < x.l → x.l < 1 →
      hsv_to_hsl (hsl_to_hsv x) = x) ∧
    (∀ x : ColorHSLA, x.Valid → 0 < x.s → 0 < x.l → x.l < 1 →
      hsi_to_hsl (hsl_to_hsi x) = x) ∧
    (∀ x : ColorHSIA, x.Valid → 0 < x.s → 0 < x.i →
      rgb_to_hsi (hsi_to_rgb x) = x) ∧
    (∀ x : ColorHSIA, x.Valid → 0 < x.s → 0 < x.i →
      hsv_to_hsi (hsi_to_hsv x) = x) ∧
    (∀ x : ColorHSIA, x.Valid → 0 < x.s → 0 < x.i →
      (ColorHCMA.from_hsi x).c + (ColorHCMA.from_hsi x).m ≤ 1 →
      hsl_to_hsi (hsi_to_hsl x) = x) := by
  refine ⟨?_, ?_, ?_, ?_, ?_, ?_, ?_, ?_, ?_, ?_, ?_, ?_⟩
  · intro x hx
    have hg := from_rgb_good hx
    show (ColorHCMA.from_hsv (ColorHCMA.from_rgb x).to_hsv).to_rgb = x
    rw [hsv_hub_roundtrip' hg.2.2.1 hg.2.2.2.1]
    exact hub_rgb_roundtrip x
  · intro x hx
    have hg := from_rgb_good hx
    show (ColorHCMA.from_hsl (ColorHCMA.from_rgb x).to_hsl).to_rgb = x
    rw [hsl_hub_roundtrip' hg.2.2.1 hg.2.2.2.1 hg.2.2.2.2.1]
    exact hub_rgb_roundtrip x
  · intro x hx
    have hg := from_rgb_good hx
    show (ColorHCMA.from_hsi (ColorHCMA.from_rgb x).to_hsi).to_rgb = x
    rw [hsi_hub_roundtrip' hg.2.2.1 hg.2.2.2.1]
    exact hub_rgb_roundtrip x
  · intro x hx hs hv
    show (ColorHCMA.from_rgb (ColorHCMA.from_hsv x).to_rgb).to_hsv = x
    rw [rgb_hub_roundtrip' hx.1 hx.2.1 (from_hsv_c_pos hs hv)]
    exact hsv_enc_dec' hv
  · intro x hx hs hv
    have hg := from_hsv_good hx
    show (ColorHCMA.from_hsl (ColorHCMA.from_hsv x).to_hsl).to_hsv = x
    rw [hsl_hub_roundtrip' hg.2.2.1 hg.2.2.2.1 hg.2.2.2.2.1]
    exact hsv_enc_dec' hv
  · intro x hx hs hv
    have hg := from_hsv_good hx
    show (ColorHCMA.from_hsi (ColorHCMA.from_hsv x).to_hsi).to_hsv = x
    rw [hsi_hub_roundtrip' hg.2.2.1 hg.2.2.2.1]
    exact hsv_enc_dec' hv
  · intro x hx hs hl0 hl1
    show (ColorHCMA.from_rgb (ColorHCMA.from_hsl x).to_rgb).to_hsl = x
    rw [rgb_hub_roundtrip' hx.1 hx.2.1 (from_hsl_c_pos hx hs hl0 hl1)]
    exact hsl_enc_dec' hl0 hl1
  · intro x hx hs hl0 hl1
    have hg := from_hsl_good hx
    show (ColorHCMA.from_hsv (ColorHCMA.from_hsl x).to_hsv).to_hsl = x
    rw [hsv_hub_roundtrip' hg.2.2.1 hg.2.2.2.1]
    exact hsl_enc_dec' hl0 hl1
  · intro x hx hs hl0 hl1
    have hg := from_hsl_good hx
    show (ColorHCMA.from_hsi (ColorHCMA.from_hsl x).to_hsi).to_hsl = x
    rw [hsi_hub_roundtrip' hg.2.2.1 hg.2.2.2.1]
    exact hsl_enc_dec' hl0 hl1
  · intro x hx hs hi
    show (ColorHCMA.from_rgb (ColorHCMA.from_hsi x).to_rgb).to_hsi = x
    rw [rgb_hub_roundtrip' hx.1 hx.2.1 (from_hsi_c_pos hs hi)]
    exact hsi_enc_dec' hi
  · intro x hx hs hi
    show (ColorHCMA.from_hsv (ColorHCMA.from_hsi x).to_hsv).to_hsi = x
    rw [hsv_hub_roundtrip' (from_hsi_c_pos hs hi).le
      (from_hsi_m_nonneg hi.le hx.2.2.2.1)]
    exact hsi_enc_dec' hi
  · intro x hx hs hi hcm
    show (ColorHCMA.from_hsl (ColorHCMA.from_hsi x).to_hsl).to_hsi = x
    rw [hsl_hub_roundtrip' (from_hsi_c_pos hs hi).le
      (from_hsi_m_nonneg hi.le hx.2.2.2.1) hcm]
    exact hsi_enc_dec' hi

end Colors

namespace Colors

/-! ### C6: exact inversion of the RGB encoder by the decoder -/

/-- C6: for every RGBA color (in particular every valid one, in all six hue
sectors and at both sector boundaries), decoding the hub value produced by
`ColorHCMA::from_rgb` with `ColorHCMA::to_rgb` returns exactly the original
red, green and blue components — there is no seam at the hue wrap point
because the identity is exact everywhere. -/
theorem C6_decode_inverts_encode (color : ColorRGBA) :
    (ColorHCMA.from_rgb color).to_rgb = color :=
  hub_rgb_roundtrip color

/-! ### C3: range preservation of the conversion façade -/

/-- C3 (amended): the nine public conversions whose source space is RGB, HSV
or HSL map valid colors to valid colors (hue in `[0,1)`, all other components
in `[0,1]`), so every value they hand to an unchecked constructor is in
range.  Conversions out of HSI are excluded: they can leave the range. -/
theorem C3_range_preserved :
    (∀ x : ColorRGBA, x.Valid → (rgb_to_hsv x).Valid) ∧
    (∀ x : ColorRGBA, x.Valid → (rgb_to_hsl x).Valid) ∧
    (∀ x : ColorRGBA, x.Valid → (rgb_to_hsi x).Valid) ∧
    (∀ x : ColorHSVA, x.Valid → (hsv_to_hsl x).Valid) ∧
    (∀ x : ColorHSVA, x.Valid → (hsv_to_hsi x).Valid) ∧
    (∀ x : ColorHSVA, x.Valid → (hsv_to_rgb x).Valid) ∧
    (∀ x : ColorHSLA, x.Valid → (hsl_to_hsi x).Valid) ∧
    (∀ x : ColorHSLA, x.Valid → (hsl_to_rgb x).Valid) ∧
    (∀ x : ColorHSLA, x.Valid → (hsl_to_hsv x).Valid) :=
  ⟨fun _ hx => to_hsv_valid (from_rgb_good hx),
    fun _ hx => to_hsl_valid (from_rgb_good hx),
    fun _ hx => to_hsi_valid (from_rgb_good hx),
    fun _ hx => to_hsl_valid (from_hsv_good hx),
    fun _ hx => to_hsi_valid (from_hsv_good hx),
    fun _ hx => to_rgb_valid (from_hsv_good hx),
    fun _ hx => to_hsi_valid (from_hsl_good hx),
    fun _ hx => to_rgb_valid (from_hsl_good hx),
    fun _ hx => to_hsv_valid (from_hsl_good hx)⟩

lemma remEuclid_six_zero : remEuclid (6 * (0:ℚ)) 2 = 0 := by
  unfold remEuclid
  norm_num

lemma from_hsi_sat_one : ColorHCMA.from_hsi ⟨0, 1, 1, 1⟩ = ⟨0, 3, 0, 1⟩ := by
  unfold ColorHCMA.from_hsi
  dsimp only
  rw [remEuclid_six_zero]
  apply hcmaExt <;> norm_num

/-- C3 counterexample: the valid HSI color `(h, s, i, a) = (0, 1, 1, 1)`
decodes through `hsi_to_rgb` to `(3, 0, 0, 1)` — the red channel is 3, far
outside `[0, 1]`, so the conversion engine does pass out-of-range values to
the unchecked constructor when the source space is HSI. -/
theorem C3_counterexample :
    (⟨0, 1, 1, 1⟩ : ColorHSIA).Valid ∧
    hsi_to_rgb ⟨0, 1, 1, 1⟩ = ⟨3, 0, 0, 1⟩ ∧
    ¬ (hsi_to_rgb ⟨0, 1, 1, 1⟩).Valid := by
  have E : hsi_to_rgb ⟨0, 1, 1, 1⟩ = ⟨3, 0, 0, 1⟩ := by
    show (ColorHCMA.from_hsi _).to_rgb = _
    rw [from_hsi_sat_one, to_rgb_s0lo (by norm_num) (by norm_num)]
    apply rgbaExt <;> norm_num
  refine ⟨by unfold ColorHSIA.Valid; norm_num, E, ?_⟩
  rw [E]
  intro hv
  exact absurd hv.2.1 (by norm_num)

/-- C3 witness: the amended range statement applied at concrete valid colors
of each retained source space. -/
theorem C3_range_preserved_witness :
    (rgb_to_hsv ⟨1/4, 1/2, 3/4, 1⟩).Valid ∧
    (rgb_to_hsl ⟨1/4, 1/2, 3/4, 1⟩).Valid ∧
    (rgb_to_hsi ⟨1/4, 1/2, 3/4, 1⟩).Valid ∧
    (hsv_to_hsl ⟨0, 1/2, 1/2, 1⟩).Valid ∧
    (hsv_to_hsi ⟨0, 1/2, 1/2, 1⟩).Valid ∧
    (hsv_to_rgb ⟨0, 1/2, 1/2, 1⟩).Valid ∧
    (hsl_to_hsi ⟨0, 1/2, 1/2, 1⟩).Valid ∧
    (hsl_to_rgb ⟨0, 1/2, 1/2, 1⟩).Valid ∧
    (hsl_to_hsv ⟨0, 1/2, 1/2, 1⟩).Valid := by
  have hr : (⟨1/4, 1/2, 3/4, 1⟩ : ColorRGBA).Valid := by
    unfold ColorRGBA.Valid
    norm_num
  have hv : (⟨0, 1/2, 1/2, 1⟩ : ColorHSVA).Valid := by
    unfold ColorHSVA.Valid
    norm_num
  have hl : (⟨0, 1/2, 1/2, 1⟩ : ColorHSLA).Valid := by
    unfold ColorHSLA.Valid
    norm_num
  obtain ⟨t1, t2, t3, t4, t5, t6, t7, t8, t9⟩ := C3_range_preserved
  exact ⟨t1 _ hr, t2 _ hr, t3 _ hr, t4 _ hv, t5 _ hv, t6 _ hv, t7 _ hl, t8 _ hl, t9 _ hl⟩

end Colors

namespace Colors

/-- C1 witness: the round-trip statement applied at one concrete color per
source space, with every hypothesis discharged. -/
theorem C1_roundtrips_witness :
    hsv_to_rgb (rgb_to_hsv ⟨1/4, 1/2, 3/4, 1⟩) = ⟨1/4, 1/2, 3/4, 1⟩ ∧
    hsl_to_rgb (rgb_to_hsl ⟨1/4, 1/2, 3/4, 1⟩) = ⟨1/4, 1/2, 3/4, 1⟩ ∧
    hsi_to_rgb (rgb_to_hsi ⟨1/4, 1/2, 3/4, 1⟩) = ⟨1/4, 1/2, 3/4, 1⟩ ∧
    rgb_to_hsv (hsv_to_rgb ⟨0, 1/2, 1/2, 1⟩) = ⟨0, 1/2, 1/2, 1⟩ ∧
    hsl_to_hsv (hsv_to_hsl ⟨0, 1/2, 1/2, 1⟩) = ⟨0, 1/2, 1/2, 1⟩ ∧
    hsi_to_hsv (hsv_to_hsi ⟨0, 1/2, 1/2, 1⟩) = ⟨0, 1/2, 1/2, 1⟩ ∧
    rgb_to_hsl (hsl_to_rgb ⟨0, 1/2, 1/2, 1⟩) = ⟨0, 1/2, 1/2, 1⟩ ∧
    hsv_to_hsl (hsl_to_hsv ⟨0, 1/2, 1/2, 1⟩) = ⟨0, 1/2, 1/2, 1⟩ ∧
    hsi_to_hsl (hsl_to_hsi ⟨0, 1/2, 1/2, 1⟩) = ⟨0, 1/2, 1/2, 1⟩ ∧
    rgb_to_hsi (hsi_to_rgb ⟨0, 1/2, 1/2, 1⟩) = ⟨0, 1/2, 1/2, 1⟩ ∧
    hsv_to_hsi (hsi_to_hsv ⟨0, 1/2, 1/2, 1⟩) = ⟨0, 1/2, 1/2, 1⟩ ∧
    hsl_to_hsi (hsi_to_hsl ⟨0, 1/2, 1/2, 1⟩) = ⟨0, 1/2, 1/2, 1⟩ := by
  have hr : (⟨1/4, 1/2, 3/4, 1⟩ : ColorRGBA).Valid := by
    unfold ColorRGBA.Valid
    norm_num
  have hv : (⟨0, 1/2, 1/2, 1⟩ : ColorHSVA).Valid := by
    unfold ColorHSVA.Valid
    norm_num
  have hl : (⟨0, 1/2, 1/2, 1⟩ : ColorHSLA).Valid := by
    unfold ColorHSLA.Valid
    norm_num
  have hi : (⟨0, 1/2, 1/2, 1⟩ : ColorHSIA).Valid := by
    unfold ColorHSIA.Valid
    norm_num
  have hfi : ColorHCMA.from_hsi ⟨0, 1/2, 1/2, 1⟩ = ⟨0, 3/4, 1/4, 1⟩ := by
    unfold ColorHCMA.from_hsi
    dsimp only
    rw [remEuclid_six_zero]
    apply hcmaExt <;> norm_num
  have hcm : (ColorHCMA.from_hsi ⟨0, 1/2, 1/2, 1⟩).c +
      (ColorHCMA.from_hsi ⟨0, 1/2, 1/2, 1⟩).m ≤ 1 := by
    rw [hfi]
    norm_num
  obtain ⟨t1, t2, t3, t4, t5, t6, t7, t8, t9, t10, t11, t12⟩ := C1_roundtrips
  exact ⟨t1 _ hr, t2 _ hr, t3 _ hr,
    t4 _ hv (by norm_num) (by norm_num), t5 _ hv (by norm_num) (by norm_num),
    t6 _ hv (by norm_num) (by norm_num),
    t7 _ hl (by norm_num) (by norm_num) (by norm_num),
    t8 _ hl (by norm_num) (by norm_num) (by norm_num),
    t9 _ hl (by norm_num) (by norm_num) (by norm_num),
    t10 _ hi (by norm_num) (by norm_num), t11 _ hi (by norm_num) (by norm_num),
    t12 _ hi (by norm_num) (by norm_num) hcm⟩

/-! ### C7: tie-breaking in the channel index selection -/

/-- C7 counterexample: for `(r, g, b) = (1/5, 1/5, 1/2)` the channels 0 and 1
tie for the minimum, yet the selection block picks index 1, not the
lower-indexed channel 0 — the code resolves minimum ties to the higher
index. -/
theorem C7_counterexample :
    minMaxIdx (1/5) (1/5) (1/2) = (1, 2) ∧
    (minMaxIdx (1/5) (1/5) (1/2)).1 ≠ 0 := by
  have e : minMaxIdx (1/5) (1/5) (1/2) = (1, 2) := by
    unfold minMaxIdx
    rw [if_neg (fun hy : (1:ℚ)/5 < 1/5 ∧ (1:ℚ)/5 < 1/2 => absurd hy.1 (by norm_num)),
      if_pos (by norm_num : (1:ℚ)/5 < 1/2), if_pos (by norm_num : (1:ℚ)/5 < 1/2)]
  exact ⟨e, by rw [e]; norm_num⟩

/-- C7 (amended): ties are resolved deterministically, but not always to the
lower index: a tie for the maximum goes to the lower-indexed channel while a
tie for the minimum goes to the higher-indexed channel (all-equal inputs give
minimum index 2 and maximum index 0); consequently the symmetric input
RGB(0.5, 0.5, 0.2, 1) always encodes to the same hue 1/6. -/
theorem C7_tie_breaking :
    (∀ u v w : ℚ,
      (u = v → w < u → minMaxIdx u v w = (2, 0)) ∧
      (u = w → v < u → minMaxIdx u v w = (1, 0)) ∧
      (v = w → u < v → minMaxIdx u v w = (0, 1)) ∧
      (u = v → u < w → minMaxIdx u v w = (1, 2)) ∧
      (u = w → u < v → minMaxIdx u v w = (2, 1)) ∧
      (v = w → v < u → minMaxIdx u v w = (2, 0)) ∧
      (u = v → v = w → minMaxIdx u v w = (2, 0))) ∧
    ColorHCMA.from_rgb ⟨1/2, 1/2, 1/5, 1⟩ = ⟨1/6, 3/10, 1/5, 1⟩ := by
  constructor
  · intro u v w
    refine ⟨?_, ?_, ?_, ?_, ?_, ?_, ?_⟩
    · intro he hw
      subst he
      unfold minMaxIdx
      rw [if_neg (fun hy : u < u ∧ u < w => lt_irrefl u hy.1),
        if_neg (not_lt.mpr hw.le), if_neg (lt_irrefl u)]
    · intro he hv
      subst he
      unfold minMaxIdx
      rw [if_neg (fun hy : u < v ∧ u < u => lt_irrefl u hy.2),
        if_pos hv, if_neg (lt_irrefl u)]
    · intro he hu
      subst he
      unfold minMaxIdx
      rw [if_pos ⟨hu, hu⟩, if_neg (lt_irrefl v)]
    · intro he hw
      subst he
      unfold minMaxIdx
      rw [if_neg (fun hy : u < u ∧ u < w => lt_irrefl u hy.1), if_pos hw, if_pos hw]
    · intro he hv
      subst he
      unfold minMaxIdx
      rw [if_neg (fun hy : u < v ∧ u < u => lt_irrefl u hy.2),
        if_neg (not_lt.mpr hv.le), if_pos hv]
    · intro he hu
      subst he
      unfold minMaxIdx
      rw [if_neg (fun hy : u < v ∧ u < v => absurd hy.1 (not_lt.mpr hu.le)),
        if_neg (lt_irrefl v), if_neg (not_lt.mpr hu.le)]
    · intro he1 he2
      subst he1
      subst he2
      unfold minMaxIdx
      rw [if_neg (fun hy : u < u ∧ u < u => lt_irrefl u hy.1),
        if_neg (lt_irrefl u), if_neg (lt_irrefl u)]
  · rw [from_rgb_B3b (by norm_num) le_rfl (by norm_num)]
    apply hcmaExt <;> norm_num

/-- C7 witness: the amended tie-break table applied at concrete inputs. -/
theorem C7_tie_breaking_witness :
    minMaxIdx 1 1 0 = (2, 0) ∧ minMaxIdx 1 0 1 = (1, 0) ∧
    minMaxIdx 0 1 1 = (0, 1) ∧ minMaxIdx 0 0 1 = (1, 2) ∧
    minMaxIdx 0 1 0 = (2, 1) ∧ minMaxIdx 1 0 0 = (2, 0) ∧
    minMaxIdx 1 1 1 = (2, 0) :=
  ⟨(C7_tie_breaking.1 1 1 0).1 rfl (by norm_num),
    (C7_tie_breaking.1 1 0 1).2.1 rfl (by norm_num),
    (C7_tie_breaking.1 0 1 1).2.2.1 rfl (by norm_num),
    (C7_tie_breaking.1 0 0 1).2.2.2.1 rfl (by norm_num),
    (C7_tie_breaking.1 0 1 0).2.2.2.2.1 rfl (by norm_num),
    (C7_tie_breaking.1 1 0 0).2.2.2.2.2.1 rfl (by norm_num),
    (C7_tie_breaking.1 1 1 1).2.2.2.2.2.2 rfl rfl⟩

/-! ### C10: the direct HSL→RGB helper versus the hub conversion -/

/-- C10: at the valid input HSLA(120/360, 1, 1/4, 1) — pure green in this
library's own conversion tables — the direct formula in `helper.rs` returns
RGBA(0, 0, 1/2, 1) while the hub conversion returns RGBA(0, 1/2, 0, 1): the
helper passes `f(4)` as green and `f(8)` as blue, swapping the two channels,
so the two conversions disagree by 0.5, far beyond 0.001. -/
theorem C10_helper_swaps_green_blue :
    helperHslToRgb ⟨1/3, 1, 1/4, 1⟩ = ⟨0, 0, 1/2, 1⟩ ∧
    hsl_to_rgb ⟨1/3, 1, 1/4, 1⟩ = ⟨0, 1/2, 0, 1⟩ ∧
    (helperHslToRgb ⟨1/3, 1, 1/4, 1⟩).g ≠ (hsl_to_rgb ⟨1/3, 1, 1/4, 1⟩).g := by
  have r1 : remEuclid (0 + (1/3 : ℚ) * 12) 12 = 4 := by
    have f1 : ⌊(0 + (1/3 : ℚ) * 12) / 12⌋ = (0 : ℤ) := floor_eval (by norm_num) (by norm_num)
    unfold remEuclid
    rw [f1]
    norm_num
  have r2 : remEuclid (4 + (1/3 : ℚ) * 12) 12 = 8 := by
    have f2 : ⌊(4 + (1/3 : ℚ) * 12) / 12⌋ = (0 : ℤ) := floor_eval (by norm_num) (by norm_num)
    unfold remEuclid
    rw [f2]
    norm_num
  have r3 : remEuclid (8 + (1/3 : ℚ) * 12) 12 = 0 := by
    have f3 : ⌊(8 + (1/3 : ℚ) * 12) / 12⌋ = (1 : ℤ) := floor_eval (by norm_num) (by norm_num)
    unfold remEuclid
    rw [f3]
    norm_num
  have E1 : helperHslToRgb ⟨1/3, 1, 1/4, 1⟩ = ⟨0, 0, 1/2, 1⟩ := by
    unfold helperHslToRgb ColorRGBA.newUnchecked
    dsimp only
    rw [r1, r2, r3]
    apply rgbaExt <;> norm_num [clampQ, max_def, min_def]
  have E2 : hsl_to_rgb ⟨1/3, 1, 1/4, 1⟩ = ⟨0, 1/2, 0, 1⟩ := by
    have e : ColorHCMA.from_hsl ⟨1/3, 1, 1/4, 1⟩ = ⟨1/3, 1/2, 0, 1⟩ := by
      unfold ColorHCMA.from_hsl
      dsimp only
      rw [abs_of_nonpos (by norm_num : 2 * (1/4 : ℚ) - 1 ≤ 0)]
      apply hcmaExt <;> norm_num
    show (ColorHCMA.from_hsl _).to_rgb = _
    rw [e, to_rgb_s1lo (by norm_num) (by norm_num)]
    apply rgbaExt <;> norm_num
  refine ⟨E1, E2, ?_⟩
  rw [E1, E2]
  norm_num

end Colors

namespace Colors

/-- C1 counterexample: the valid HSV color `(h, s, v, a) = (1/5, 7/10, 0, 1)`
(an achromatic color with nonzero recorded hue and saturation) comes back from
the HSV→HSL→HSV round trip as `(1/5, 0, 0, 1)`: its saturation moved by
`7/10`, far beyond the claimed `0.001` tolerance, so the round-trip claim is
false for arbitrary valid colors. -/
theorem C1_counterexample :
    (⟨1/5, 7/10, 0, 1⟩ : ColorHSVA).Valid ∧
    hsl_to_hsv (hsv_to_hsl ⟨1/5, 7/10, 0, 1⟩) = ⟨1/5, 0, 0, 1⟩ ∧
    ¬ |(hsl_to_hsv (hsv_to_hsl ⟨1/5, 7/10, 0, 1⟩)).s - (⟨1/5, 7/10, 0, 1⟩ : ColorHSVA).s|
        ≤ 1/1000 := by
  have e1 : ColorHCMA.from_hsv ⟨1/5, 7/10, 0, 1⟩ = ⟨1/5, 0, 0, 1⟩ := by
    unfold ColorHCMA.from_hsv
    apply hcmaExt <;> norm_num
  have e2 : ColorHCMA.to_hsl ⟨1/5, 0, 0, 1⟩ = ⟨1/5, 0, 0, 1⟩ := by
    unfold ColorHCMA.to_hsl ColorHSLA.newUnchecked
    dsimp only
    rw [if_pos (by norm_num : 1 - |2 * ((0:ℚ) + 1/2 * 0) - 1| = 0)]
    apply hslaExt <;> norm_num
  have e3 : ColorHCMA.from_hsl ⟨1/5, 0, 0, 1⟩ = ⟨1/5, 0, 0, 1⟩ := by
    unfold ColorHCMA.from_hsl
    apply hcmaExt <;> norm_num
  have e4 : ColorHCMA.to_hsv ⟨1/5, 0, 0, 1⟩ = ⟨1/5, 0, 0, 1⟩ := by
    unfold ColorHCMA.to_hsv ColorHSVA.newUnchecked
    dsimp only
    rw [if_pos (by norm_num : (0:ℚ) + 0 = 0)]
    apply hsvaExt <;> norm_num
  have E : hsl_to_hsv (hsv_to_hsl ⟨1/5, 7/10, 0, 1⟩) = ⟨1/5, 0, 0, 1⟩ := by
    show (ColorHCMA.from_hsl (ColorHCMA.from_hsv _).to_hsl).to_hsv = _
    rw [e1, e2, e3, e4]
  refine ⟨by unfold ColorHSVA.Valid; norm_num, E, ?_⟩
  rw [E]
  rw [abs_of_nonpos (by norm_num : ((⟨1/5, 0, 0, 1⟩ : ColorHSVA).s -
    (⟨1/5, 7/10, 0, 1⟩ : ColorHSVA).s) ≤ 0)]
  norm_num

end Colors
